import Mathlib

/-!
Verification of the handle-and-object model of a cryptographic token provider
(Google Cloud KMS PKCS#11 / CNG integrations).

The development shallowly embeds:
  * the concurrent handle registry (kmsp11/util/handle_map.h),
  * the token login state machine and object-store loader (kmsp11/token.cc),
  * the CNG provider bridge (kmscng/main/bridge.cc).

Machine integers are modelled as Nat (with explicit 32-bit masking where the
source masks); the random handle source is modelled as an explicit stream of
draws; status objects are modelled as an Except over an error-kind/code pair.
-/

set_option maxRecDepth 4000

namespace KmsInteg

/-- The absl status-code-like error kinds used by the sources, plus the
foreign-ABI numeric code (CK_RV or SECURITY_STATUS) attached by the error
constructors in errors.h. -/
inductive ErrorKind where
  | invalidArgument
  | invalidHandle
  | notFound
  | notSupported
  | outOfRange
  | permissionDenied
  | failedPrecondition
  | internal
  deriving DecidableEq, Repr

/-- An error as produced by NewError / NewInvalidArgumentError / ... :
an absl StatusCode kind plus the foreign numeric return value. -/
structure Err where
  kind : ErrorKind
  code : Nat
  deriving DecidableEq, Repr

/-! ## Handle registry: kmsp11/util/handle_map.h

`HandleMap` holds items keyed by CK_ULONG handles.  We model the underlying
absl::flat_hash_map as an association list.  `RandomHandle()` (an external
random source) is modelled as an explicit list of candidate draws consumed by
the collision-retry loop of `Add`; the loop in the source is unbounded, so the
model returns `none` when the finite draw list is exhausted. -/

/-- CKR_OBJECT_HANDLE_INVALID, the not-found CK_RV configured for the token's
object map. -/
def CKR_OBJECT_HANDLE_INVALID : Nat := 0x82

structure HandleMap (T : Type) where
  notFoundRv : Nat
  items : List (Nat × T)
  deriving Repr

namespace HandleMap

variable {T : Type}

/-- Create a new map (HandleMap constructor). -/
def new (notFoundRv : Nat) : HandleMap T :=
  { notFoundRv := notFoundRv, items := [] }

/-- The handles currently present in the map. -/
def keys (m : HandleMap T) : List Nat :=
  m.items.map Prod.fst

/-- items_.contains(handle). -/
def containsHandle (m : HandleMap T) (h : Nat) : Bool :=
  decide (h ∈ m.keys)

/-- HandleMap::Add: draw random handles until one is not already in use, then
insert.  The draws list models successive results of RandomHandle(); `none`
means the finite supply of modelled draws was exhausted (the source loops
forever instead). -/
def add (m : HandleMap T) (item : T) : List Nat → Option (Nat × HandleMap T)
  | [] => none
  | d :: rest =>
    if m.containsHandle d then add m item rest
    else some (d, { m with items := (d, item) :: m.items })

/-- HandleMap::AddDirect: insert at a caller-chosen handle; InternalError if
the handle is already in use. -/
def addDirect (m : HandleMap T) (h : Nat) (item : T) : Except Err (HandleMap T) :=
  if m.containsHandle h then
    Except.error { kind := ErrorKind.internal, code := 0 }
  else
    Except.ok { m with items := (h, item) :: m.items }

/-- HandleMap::Get: the element at the handle, or the configured not-found
error. -/
def get (m : HandleMap T) (h : Nat) : Except Err T :=
  match m.items.find? (fun p => p.fst = h) with
  | some p => Except.ok p.snd
  | none => Except.error { kind := ErrorKind.notFound, code := m.notFoundRv }

/-- HandleMap::Remove: evict the element at the handle, or the configured
not-found error. -/
def remove (m : HandleMap T) (h : Nat) : Except Err (HandleMap T) :=
  if m.containsHandle h then
    Except.ok { m with items := m.items.filter (fun p => p.fst ≠ h) }
  else
    Except.error { kind := ErrorKind.notFound, code := m.notFoundRv }

/-- The non-strict handle order induced by a strict item comparator:
h1 precedes h2 when the item at h2 does not compare strictly below the item at
h1 (std::sort leaves exactly this relation on consecutive elements).  The
source only ever compares handles present in the map (they come from the
filtered scan); the behavior on an absent handle is chosen arbitrarily. -/
def sortLe (m : HandleMap T) (lt : T → T → Bool) (h1 h2 : Nat) : Bool :=
  match m.items.find? (fun p => p.fst = h1), m.items.find? (fun p => p.fst = h2) with
  | some p1, some p2 => !(lt p2.snd p1.snd)
  | none, _ => true
  | some _, none => false

/-- HandleMap::Find: collect the handles of items matching the predicate, then
sort them by a comparator on the items (std::sort over a strict weak order;
we model the sort with mergeSort over the induced reflexive total order). -/
def find (m : HandleMap T) (predicate : T → Bool) (lt : T → T → Bool) : List Nat :=
  ((m.items.filter (fun p => predicate p.snd)).map Prod.fst).mergeSort (m.sortLe lt)

/-- The registry states reachable from a fresh map by Add, AddDirect and
Remove. -/
inductive Reachable : HandleMap T → Prop where
  | new (rv : Nat) : Reachable (HandleMap.new rv)
  | add (m : HandleMap T) (item : T) (draws : List Nat) (h : Nat) (m' : HandleMap T) :
      Reachable m → m.add item draws = some (h, m') → Reachable m'
  | addDirect (m : HandleMap T) (h : Nat) (item : T) (m' : HandleMap T) :
      Reachable m → m.addDirect h item = Except.ok m' → Reachable m'
  | remove (m : HandleMap T) (h : Nat) (m' : HandleMap T) :
      Reachable m → m.remove h = Except.ok m' → Reachable m'

theorem containsHandle_iff (m : HandleMap T) (h : Nat) :
    m.containsHandle h = true ↔ h ∈ m.keys := by
  simp [containsHandle]

theorem add_spec (m : HandleMap T) (item : T) (draws : List Nat) (h : Nat)
    (m' : HandleMap T) (hadd : m.add item draws = some (h, m')) :
    h ∉ m.keys ∧ m' = { m with items := (h, item) :: m.items } := by
  induction draws with
  | nil => simp [add] at hadd
  | cons d rest ih =>
    by_cases hc : m.containsHandle d
    · exact ih (by simpa [add, hc] using hadd)
    · have : d = h ∧ { m with items := (d, item) :: m.items } = m' := by
        simpa [add, hc] using hadd
      obtain ⟨rfl, rfl⟩ := this
      exact ⟨fun hmem => hc ((containsHandle_iff m d).mpr hmem), rfl⟩

theorem addDirect_occupied (m : HandleMap T) (h : Nat) (item : T)
    (hmem : h ∈ m.keys) :
    m.addDirect h item = Except.error { kind := ErrorKind.internal, code := 0 } := by
  simp [addDirect, containsHandle, hmem]

theorem addDirect_ok (m : HandleMap T) (h : Nat) (item : T) (m' : HandleMap T)
    (hok : m.addDirect h item = Except.ok m') :
    h ∉ m.keys ∧ m' = { m with items := (h, item) :: m.items } := by
  by_cases hc : h ∈ m.keys
  · simp [addDirect_occupied m h item hc] at hok
  · refine ⟨hc, ?_⟩
    have := hok
    simp [addDirect, containsHandle, hc] at this
    exact this.symm

theorem remove_ok (m : HandleMap T) (h : Nat) (m' : HandleMap T)
    (hok : m.remove h = Except.ok m') :
    m'.items = m.items.filter (fun p => p.fst ≠ h) ∧ m'.notFoundRv = m.notFoundRv := by
  by_cases hc : m.containsHandle h
  · have : { m with items := m.items.filter (fun p => p.fst ≠ h) } = m' := by
      simpa [remove, hc] using hok
    subst this
    exact ⟨rfl, rfl⟩
  · simp [remove, hc] at hok

theorem reachable_keys_nodup (m : HandleMap T) (hr : m.Reachable) :
    m.keys.Nodup := by
  induction hr with
  | new rv => simp [HandleMap.new, keys]
  | add m item draws h m' _ hadd ih =>
    obtain ⟨hfree, rfl⟩ := add_spec m item draws h m' hadd
    exact List.nodup_cons.mpr ⟨hfree, ih⟩
  | addDirect m h item m' _ hok ih =>
    obtain ⟨hfree, rfl⟩ := addDirect_ok m h item m' hok
    exact List.nodup_cons.mpr ⟨hfree, ih⟩
  | remove m h m' _ hok ih =>
    obtain ⟨hitems, _⟩ := remove_ok m h m' hok
    have hsub : m'.items.Sublist m.items := by
      rw [hitems]; exact List.filter_sublist m.items
    exact (hsub.map Prod.fst).nodup ih

end HandleMap

/-- C1: in every reachable registry state the live handles are pairwise
distinct (each handle resolves to exactly one item); a handle returned by Add
(random allocation with collision retry) was not live when issued; a handle
accepted by AddDirect was not live when accepted; and AddDirect on an occupied
handle fails with an Internal already-in-use error, producing no modified
map. -/
theorem handle_registry_uniqueness_invariant {T : Type} :
    (∀ m : HandleMap T, m.Reachable → m.keys.Nodup) ∧
    (∀ (m : HandleMap T) (item : T) (draws : List Nat) (h : Nat) (m' : HandleMap T),
      m.add item draws = some (h, m') → h ∉ m.keys) ∧
    (∀ (m : HandleMap T) (h : Nat) (item : T) (m' : HandleMap T),
      m.addDirect h item = Except.ok m' → h ∉ m.keys) ∧
    (∀ (m : HandleMap T) (h : Nat) (item : T), h ∈ m.keys →
      m.addDirect h item = Except.error { kind := ErrorKind.internal, code := 0 }) := by
  refine ⟨fun m hr => HandleMap.reachable_keys_nodup m hr, ?_, ?_, ?_⟩
  · exact fun m item draws h m' hadd => (HandleMap.add_spec m item draws h m' hadd).1
  · exact fun m h item m' hok => (HandleMap.addDirect_ok m h item m' hok).1
  · exact fun m h item hmem => HandleMap.addDirect_occupied m h item hmem

/-- Witness for C1 at concrete inputs: the empty registry with not-found code 7
is reachable and duplicate-free; adding item 0 with draw list [5] yields fresh
handle 5; direct insertion at handle 9 into the empty registry is accepted with
9 fresh; and direct insertion at the occupied handle 5 fails Internal. -/
theorem handle_registry_uniqueness_invariant_witness :
    (HandleMap.new 7 : HandleMap Nat).keys.Nodup ∧
    (5 : Nat) ∉ (HandleMap.new 7 : HandleMap Nat).keys ∧
    (9 : Nat) ∉ (HandleMap.new 7 : HandleMap Nat).keys ∧
    ({ notFoundRv := 7, items := [(5, 0)] } : HandleMap Nat).addDirect 5 1 =
      Except.error { kind := ErrorKind.internal, code := 0 } := by
  obtain ⟨h1, h2, h3, h4⟩ := handle_registry_uniqueness_invariant (T := Nat)
  refine ⟨h1 (HandleMap.new 7) (HandleMap.Reachable.new 7), ?_, ?_, ?_⟩
  · exact h2 (HandleMap.new 7) 0 [5] 5 { notFoundRv := 7, items := [(5, 0)] } rfl
  · exact h3 (HandleMap.new 7) 9 0 { notFoundRv := 7, items := [(9, 0)] } rfl
  · exact h4 { notFoundRv := 7, items := [(5, 0)] } 5 1 (by simp [HandleMap.keys])

/-! ## Token login state machine: kmsp11/token.cc (Token::Login, Token::Logout)

The login flag is a single Bool guarded by a lock; each operation is modelled
as a pure function from the flag to (status, new flag). -/

/-- CK_USER_TYPE value CKU_SO. -/
def CKU_SO : Nat := 0
/-- CK_USER_TYPE value CKU_USER. -/
def CKU_USER : Nat := 1
/-- CK_USER_TYPE value CKU_CONTEXT_SPECIFIC. -/
def CKU_CONTEXT_SPECIFIC : Nat := 2

def CKR_OPERATION_NOT_INITIALIZED : Nat := 0x91
def CKR_PIN_LOCKED : Nat := 0xA4
def CKR_USER_ALREADY_LOGGED_IN : Nat := 0x100
def CKR_USER_NOT_LOGGED_IN : Nat := 0x101
def CKR_USER_TYPE_INVALID : Nat := 0x163

namespace Token

/-- Modelled from the spec: the token's login flag member (declared in
kmsp11/token.h, which is not part of the sources here) starts logged out. -/
def initialLoggedIn : Bool := false

/-- Token::Login: the switch over the user type, then the
already-logged-in precondition check, then setting the flag.  Returns the
status together with the flag value after the call. -/
def login (user : Nat) (isLoggedIn : Bool) : Except Err Unit × Bool :=
  if user = CKU_USER then
    if isLoggedIn then
      (Except.error { kind := ErrorKind.failedPrecondition,
                      code := CKR_USER_ALREADY_LOGGED_IN }, isLoggedIn)
    else
      (Except.ok (), true)
  else if user = CKU_SO then
    (Except.error { kind := ErrorKind.permissionDenied, code := CKR_PIN_LOCKED },
     isLoggedIn)
  else if user = CKU_CONTEXT_SPECIFIC then
    (Except.error { kind := ErrorKind.permissionDenied,
                    code := CKR_OPERATION_NOT_INITIALIZED }, isLoggedIn)
  else
    (Except.error { kind := ErrorKind.invalidArgument, code := CKR_USER_TYPE_INVALID },
     isLoggedIn)

/-- Token::Logout: the not-logged-in precondition check, then clearing the
flag.  Returns the status together with the flag value after the call. -/
def logout (isLoggedIn : Bool) : Except Err Unit × Bool :=
  if isLoggedIn then
    (Except.ok (), false)
  else
    (Except.error { kind := ErrorKind.failedPrecondition,
                    code := CKR_USER_NOT_LOGGED_IN }, false)

end Token

/-- C4: the login flag starts logged out; Login with the supported role while
already logged in fails FailedPrecondition (CKR_USER_ALREADY_LOGGED_IN) and
leaves the flag set; Logout while logged out fails FailedPrecondition
(CKR_USER_NOT_LOGGED_IN) and leaves the flag clear; a successful Login sets
the flag and a successful Logout clears it; and no other transition exists:
the flag changes under Login only by a successful supported-role login from
the logged-out state, and under Logout only by a successful logout from the
logged-in state. -/
theorem token_login_two_state_machine :
    Token.initialLoggedIn = false ∧
    Token.login CKU_USER true =
      (Except.error { kind := ErrorKind.failedPrecondition,
                      code := CKR_USER_ALREADY_LOGGED_IN }, true) ∧
    Token.login CKU_USER false = (Except.ok (), true) ∧
    Token.logout false =
      (Except.error { kind := ErrorKind.failedPrecondition,
                      code := CKR_USER_NOT_LOGGED_IN }, false) ∧
    Token.logout true = (Except.ok (), false) ∧
    (∀ (user : Nat) (s : Bool), (Token.login user s).2 ≠ s →
      user = CKU_USER ∧ s = false ∧ Token.login user s = (Except.ok (), true)) ∧
    (∀ s : Bool, (Token.logout s).2 ≠ s →
      s = true ∧ Token.logout s = (Except.ok (), false)) := by
  refine ⟨rfl, rfl, rfl, rfl, rfl, ?_, ?_⟩
  · intro user s hne
    by_cases hu : user = CKU_USER
    · subst hu
      cases s with
      | false => exact ⟨rfl, rfl, rfl⟩
      | true => simp [Token.login] at hne
    · exfalso
      apply hne
      simp only [Token.login, if_neg hu]
      split <;> try rfl
      split <;> rfl
  · intro s hne
    cases s with
    | false => simp [Token.logout] at hne
    | true => exact ⟨rfl, rfl⟩

/-- Witness for C4: a non-supported user type (CKU_SO) never changes the flag,
and logging out from the logged-in state is the successful clearing
transition. -/
theorem token_login_two_state_machine_witness :
    Token.initialLoggedIn = false ∧
    ((Token.login CKU_SO true).2 ≠ true →
      CKU_SO = CKU_USER ∧ True = False ∧ Token.login CKU_SO true = (Except.ok (), true)) ∧
    (true = true ∧ Token.logout true = (Except.ok (), false)) := by
  obtain ⟨h0, _, _, _, _, h5, h6⟩ := token_login_two_state_machine
  refine ⟨h0, ?_, ?_⟩
  · intro hne
    exact absurd rfl hne
  · exact ⟨rfl, (h6 true (by simp [Token.logout])).2⟩

/-- C5: Token::Login accepts exactly CKU_USER: the security-officer role
CKU_SO fails PermissionDenied with CKR_PIN_LOCKED, the per-operation
re-authentication role CKU_CONTEXT_SPECIFIC fails PermissionDenied with
CKR_OPERATION_NOT_INITIALIZED, every other role fails InvalidArgument with
CKR_USER_TYPE_INVALID, each rejection leaving the flag unchanged; and a
successful login implies the role was CKU_USER. -/
theorem token_login_accepts_exactly_user_role :
    (∀ s : Bool, Token.login CKU_SO s =
      (Except.error { kind := ErrorKind.permissionDenied, code := CKR_PIN_LOCKED }, s)) ∧
    (∀ s : Bool, Token.login CKU_CONTEXT_SPECIFIC s =
      (Except.error { kind := ErrorKind.permissionDenied,
                      code := CKR_OPERATION_NOT_INITIALIZED }, s)) ∧
    (∀ (user : Nat) (s : Bool), user ≠ CKU_USER → user ≠ CKU_SO →
      user ≠ CKU_CONTEXT_SPECIFIC →
      Token.login user s =
        (Except.error { kind := ErrorKind.invalidArgument,
                        code := CKR_USER_TYPE_INVALID }, s)) ∧
    (∀ (user : Nat) (s : Bool), (Token.login user s).1 = Except.ok () →
      user = CKU_USER) := by
  refine ⟨fun s => rfl, fun s => rfl, ?_, ?_⟩
  · intro user s h1 h2 h3
    simp [Token.login, h1, h2, h3]
  · intro user s hok
    by_cases hu : user = CKU_USER
    · exact hu
    · exfalso
      revert hok
      simp only [Token.login, if_neg hu]
      split
      · simp
      · split <;> simp

/-- Witness for C5: user type 5 (neither CKU_USER, CKU_SO nor
CKU_CONTEXT_SPECIFIC) is rejected InvalidArgument with the flag unchanged,
and the successful login at CKU_USER from logged-out indeed used CKU_USER. -/
theorem token_login_accepts_exactly_user_role_witness :
    Token.login CKU_SO false =
      (Except.error { kind := ErrorKind.permissionDenied, code := CKR_PIN_LOCKED }, false) ∧
    Token.login 5 true =
      (Except.error { kind := ErrorKind.invalidArgument,
                      code := CKR_USER_TYPE_INVALID }, true) ∧
    CKU_USER = CKU_USER := by
  obtain ⟨h1, _, h3, h4⟩ := token_login_accepts_exactly_user_role
  exact ⟨h1 false, h3 5 true (by decide) (by decide) (by decide),
         h4 CKU_USER false rfl⟩

/-! ## Object store loader: kmsp11/token.cc (ObjectStoreBuilder, LoadVersions,
LoadState, LoadObjects)

The KMS client, the PEM/DER parsing and marshalling primitives, the
certificate authority and the algorithm-details table are external
collaborators (their sources are not part of this core); they are modelled as
explicit oracle functions.  Parsed public keys and certificates are opaque
values modelled as Nat. -/

/-- kms_v1::CryptoKeyVersion_CryptoKeyVersionState_ENABLED proto value. -/
def CKV_STATE_ENABLED : Nat := 1
/-- kms_v1::ProtectionLevel::HSM proto value. -/
def PROTECTION_LEVEL_HSM : Nat := 2
/-- kms_v1::CryptoKey::ASYMMETRIC_SIGN proto value. -/
def PURPOSE_ASYMMETRIC_SIGN : Nat := 5
/-- kms_v1::CryptoKey::ASYMMETRIC_DECRYPT proto value. -/
def PURPOSE_ASYMMETRIC_DECRYPT : Nat := 6

structure CryptoKeyVersion where
  name : String
  state : Nat
  algorithm : Nat
  deriving DecidableEq, Repr

structure CryptoKey where
  name : String
  versionTemplateProtectionLevel : Nat
  purpose : Nat
  deriving DecidableEq, Repr

structure PublicKey where
  pem : String
  deriving DecidableEq, Repr

/-- The remote KMS client collaborator.  Each dereference of a paged range
iterator yields a StatusOr, modelled as an Except element of the listing. -/
structure KmsClient where
  listCryptoKeys : String → List (Except Err CryptoKey)
  listCryptoKeyVersions : String → List (Except Err CryptoKeyVersion)
  getPublicKey : String → Except Err PublicKey

/-- The cryptographic collaborators consumed by the loader (crypto_utils,
cert_authority, algorithm_details): modelled as oracle functions over opaque
parsed values. -/
structure CryptoOracles where
  certAuthorityNew : Except Err Unit
  getDetails : Nat → Except Err Unit
  parseX509PublicKeyPem : String → Except Err Nat
  marshalX509PublicKeyDer : Nat → Except Err (List Nat)
  generateCert : CryptoKeyVersion → Nat → Except Err Nat
  marshalX509CertificateDer : Nat → Except Err (List Nat)
  parseX509PublicKeyDer : List Nat → Except Err Nat
  parseX509CertificateDer : List Nat → Except Err Nat

/-- The certificate message of an AsymmetricKey proto entry. -/
structure Certificate where
  x509Der : List Nat
  handle : Nat
  deriving DecidableEq, Repr

/-- One AsymmetricKey entry of the ObjectStoreState proto. -/
structure AsymmetricKey where
  cryptoKeyVersion : CryptoKeyVersion
  privateKeyHandle : Nat
  publicKeyHandle : Nat
  publicKeyDer : List Nat
  certificate : Option Certificate
  deriving DecidableEq, Repr

/-- The ObjectStoreState proto: the ordered asymmetric_keys entries. -/
abbrev ObjectStoreState := List AsymmetricKey

/-- A model-only error marking exhaustion of the finite modelled supply of
RandomHandle draws (the source loops on an unbounded random stream instead). -/
def modelSupplyExhausted : Err := { kind := ErrorKind.internal, code := 0xFFFF }

/-- ObjectStoreBuilder::NewHandle: draw from the handle supply until the draw
is not in the already-allocated set, record it as allocated.  Returns the
handle, the remaining supply and the new allocated set. -/
def newBuilderHandle : List Nat → List Nat → Option (Nat × List Nat × List Nat)
  | [], _ => none
  | d :: rest, alloc =>
    if d ∈ alloc then newBuilderHandle rest alloc
    else some (d, rest, d :: alloc)

structure ObjectStoreBuilder where
  generateCerts : Bool
  asymmetricKeys : List AsymmetricKey
  allocatedHandles : List Nat
  handleSupply : List Nat

namespace ObjectStoreBuilder

/-- ObjectStoreBuilder::New: constructing the certificate authority may fail,
which aborts the whole load. -/
def new (o : CryptoOracles) (generateCerts : Bool) (supply : List Nat) :
    Except Err ObjectStoreBuilder :=
  if generateCerts then
    match o.certAuthorityNew with
    | Except.error e => Except.error e
    | Except.ok _ =>
      Except.ok { generateCerts := true, asymmetricKeys := [],
                  allocatedHandles := [], handleSupply := supply }
  else
    Except.ok { generateCerts := false, asymmetricKeys := [],
                allocatedHandles := [], handleSupply := supply }

/-- ObjectStoreBuilder::AddAsymmetricKey: parse the PEM public key, assign the
private then the public handle, re-encode to DER, optionally synthesize and
marshal a certificate with a third handle, and append the entry to the
state. -/
def addAsymmetricKey (o : CryptoOracles) (b : ObjectStoreBuilder)
    (ckv : CryptoKeyVersion) (publicKey : PublicKey) :
    Except Err ObjectStoreBuilder :=
  match o.parseX509PublicKeyPem publicKey.pem with
  | Except.error e => Except.error e
  | Except.ok pub =>
    match newBuilderHandle b.handleSupply b.allocatedHandles with
    | none => Except.error modelSupplyExhausted
    | some (privH, s1, a1) =>
      match newBuilderHandle s1 a1 with
      | none => Except.error modelSupplyExhausted
      | some (pubH, s2, a2) =>
        match o.marshalX509PublicKeyDer pub with
        | Except.error e => Except.error e
        | Except.ok der =>
          if b.generateCerts then
            match o.generateCert ckv pub with
            | Except.error e => Except.error e
            | Except.ok x509 =>
              match o.marshalX509CertificateDer x509 with
              | Except.error e => Except.error e
              | Except.ok certDer =>
                match newBuilderHandle s2 a2 with
                | none => Except.error modelSupplyExhausted
                | some (certH, s3, a3) =>
                  Except.ok { b with
                    asymmetricKeys := b.asymmetricKeys ++
                      [{ cryptoKeyVersion := ckv, privateKeyHandle := privH,
                         publicKeyHandle := pubH, publicKeyDer := der,
                         certificate := some { x509Der := certDer, handle := certH } }],
                    allocatedHandles := a3, handleSupply := s3 }
          else
            Except.ok { b with
              asymmetricKeys := b.asymmetricKeys ++
                [{ cryptoKeyVersion := ckv, privateKeyHandle := privH,
                   publicKeyHandle := pubH, publicKeyDer := der,
                   certificate := none }],
              allocatedHandles := a2, handleSupply := s2 }

end ObjectStoreBuilder

/-- The loop body of LoadVersions over the listed versions: skip (continue)
versions not ENABLED and versions whose algorithm has no details mapping;
fetch amd add the rest; abort on any listing error, fetch error or
AddAsymmetricKey error. -/
def loadVersionsFrom (o : CryptoOracles) (client : KmsClient) :
    List (Except Err CryptoKeyVersion) → ObjectStoreBuilder →
    Except Err ObjectStoreBuilder
  | [], b => Except.ok b
  | Except.error e :: _, _ => Except.error e
  | Except.ok ckv :: rest, b =>
    if ckv.state ≠ CKV_STATE_ENABLED then
      loadVersionsFrom o client rest b
    else if ¬ (o.getDetails ckv.algorithm).isOk then
      loadVersionsFrom o client rest b
    else
      match client.getPublicKey ckv.name with
      | Except.error e => Except.error e
      | Except.ok pub =>
        match b.addAsymmetricKey o ckv pub with
        | Except.error e => Except.error e
        | Except.ok b2 => loadVersionsFrom o client rest b2

/-- LoadVersions: list the key's versions and fold the loop body. -/
def LoadVersions (o : CryptoOracles) (client : KmsClient) (key : CryptoKey)
    (b : ObjectStoreBuilder) : Except Err ObjectStoreBuilder :=
  loadVersionsFrom o client (client.listCryptoKeyVersions key.name) b

/-- The loop body of LoadState over the listed keys: skip keys whose version
template protection level is not HSM; load versions of keys with purpose
ASYMMETRIC_DECRYPT or ASYMMETRIC_SIGN; skip keys with any other purpose;
abort on a listing error or a LoadVersions error. -/
def loadStateFrom (o : CryptoOracles) (client : KmsClient) :
    List (Except Err CryptoKey) → ObjectStoreBuilder →
    Except Err ObjectStoreBuilder
  | [], b => Except.ok b
  | Except.error e :: _, _ => Except.error e
  | Except.ok key :: rest, b =>
    if key.versionTemplateProtectionLevel ≠ PROTECTION_LEVEL_HSM then
      loadStateFrom o client rest b
    else if key.purpose = PURPOSE_ASYMMETRIC_DECRYPT ∨
            key.purpose = PURPOSE_ASYMMETRIC_SIGN then
      match LoadVersions o client key b with
      | Except.error e => Except.error e
      | Except.ok b2 => loadStateFrom o client rest b2
    else
      loadStateFrom o client rest b

/-- LoadState: construct the builder (with optional certificate authority),
fold over the listed keys, and return the accumulated snapshot. -/
def LoadState (o : CryptoOracles) (client : KmsClient) (keyRingName : String)
    (generateCerts : Bool) (handleSupply : List Nat) :
    Except Err ObjectStoreState :=
  match ObjectStoreBuilder.new o generateCerts handleSupply with
  | Except.error e => Except.error e
  | Except.ok b =>
    match loadStateFrom o client (client.listCryptoKeys keyRingName) b with
    | Except.error e => Except.error e
    | Except.ok b2 => Except.ok b2.asymmetricKeys

/-- Refinement-side definition, following the spec's words: the keys retained
by load are exactly those with HSM protection level and asymmetric
sign/decrypt purpose. -/
def retainedKeysOfList : List (Except Err CryptoKey) → List CryptoKey :=
  List.filterMap (fun e =>
    match e with
    | Except.ok k =>
      if k.versionTemplateProtectionLevel = PROTECTION_LEVEL_HSM ∧
         (k.purpose = PURPOSE_ASYMMETRIC_DECRYPT ∨
          k.purpose = PURPOSE_ASYMMETRIC_SIGN) then some k else none
    | Except.error _ => none)

/-- Refinement-side definition, following the spec's words: within a list of
listed versions, exactly those in the ENABLED state whose algorithm has a
supported details mapping. -/
def retainedVersionsOfList (o : CryptoOracles) :
    List (Except Err CryptoKeyVersion) → List CryptoKeyVersion :=
  List.filterMap (fun e =>
    match e with
    | Except.ok v =>
      if v.state = CKV_STATE_ENABLED ∧ (o.getDetails v.algorithm).isOk then
        some v else none
    | Except.error _ => none)

/-- Refinement-side definition, following the spec's words: the key versions
the whole load retains, in listing order. -/
def specRetainedVersions (o : CryptoOracles) (client : KmsClient)
    (keyRingName : String) : List CryptoKeyVersion :=
  (retainedKeysOfList (client.listCryptoKeys keyRingName)).flatMap (fun k =>
    retainedVersionsOfList o (client.listCryptoKeyVersions k.name))

/-- The external-collaborator calls made for one retained version all
succeeded: the public key fetch, the PEM parse, the DER re-encoding, and
(when certificates are generated) certificate generation and its DER
encoding. -/
def versionOraclesOk (o : CryptoOracles) (client : KmsClient) (gen : Bool)
    (v : CryptoKeyVersion) : Prop :=
  ∃ pub, client.getPublicKey v.name = Except.ok pub ∧
    ∃ p, o.parseX509PublicKeyPem pub.pem = Except.ok p ∧
      (o.marshalX509PublicKeyDer p).isOk = true ∧
      (gen = true → ∃ x, o.generateCert v p = Except.ok x ∧
        (o.marshalX509CertificateDer x).isOk = true)

theorem addAsymmetricKey_ok (o : CryptoOracles) (b b2 : ObjectStoreBuilder)
    (ckv : CryptoKeyVersion) (publicKey : PublicKey)
    (hok : b.addAsymmetricKey o ckv publicKey = Except.ok b2) :
    b2.generateCerts = b.generateCerts ∧
    (∃ entry : AsymmetricKey, entry.cryptoKeyVersion = ckv ∧
      b2.asymmetricKeys = b.asymmetricKeys ++ [entry]) ∧
    ∃ p, o.parseX509PublicKeyPem publicKey.pem = Except.ok p ∧
      (o.marshalX509PublicKeyDer p).isOk = true ∧
      (b.generateCerts = true → ∃ x, o.generateCert ckv p = Except.ok x ∧
        (o.marshalX509CertificateDer x).isOk = true) := by
  unfold ObjectStoreBuilder.addAsymmetricKey at hok
  split at hok
  · exact absurd hok (by simp)
  rename_i pub hpub
  split at hok
  · exact absurd hok (by simp)
  rename_i privH s1 a1 hh1
  split at hok
  · exact absurd hok (by simp)
  rename_i pubH s2 a2 hh2
  split at hok
  · exact absurd hok (by simp)
  rename_i der hder
  split at hok
  · rename_i hgen
    split at hok
    · exact absurd hok (by simp)
    rename_i x509 hx
    split at hok
    · exact absurd hok (by simp)
    rename_i certDer hcd
    split at hok
    · exact absurd hok (by simp)
    rename_i certH s3 a3 hh3
    have hb2 := (Except.ok.injEq _ _).mp hok
    subst hb2
    exact ⟨rfl, ⟨_, rfl, rfl⟩, pub, hpub, by rw [hder]; rfl,
           fun _ => ⟨x509, hx, by rw [hcd]; rfl⟩⟩
  · rename_i hgen
    have hb2 := (Except.ok.injEq _ _).mp hok
    subst hb2
    exact ⟨rfl, ⟨_, rfl, rfl⟩, pub, hpub, by rw [hder]; rfl,
           fun hg => absurd hg hgen⟩

theorem loadVersionsFrom_ok (o : CryptoOracles) (client : KmsClient)
    (lst : List (Except Err CryptoKeyVersion)) (b b2 : ObjectStoreBuilder)
    (hok : loadVersionsFrom o client lst b = Except.ok b2) :
    b2.generateCerts = b.generateCerts ∧
    b2.asymmetricKeys.map (fun e => e.cryptoKeyVersion) =
      b.asymmetricKeys.map (fun e => e.cryptoKeyVersion) ++
        retainedVersionsOfList o lst ∧
    ∀ v ∈ retainedVersionsOfList o lst,
      versionOraclesOk o client b.generateCerts v := by
  induction lst generalizing b with
  | nil =>
    have hb : b = b2 := by simpa [loadVersionsFrom] using hok
    subst hb
    simp [retainedVersionsOfList]
  | cons e rest ih =>
    match e with
    | Except.error err => simp [loadVersionsFrom] at hok
    | Except.ok v =>
      by_cases hstate : v.state = CKV_STATE_ENABLED
      · by_cases hdet : (o.getDetails v.algorithm).isOk = true
        · simp only [loadVersionsFrom, hstate, hdet, ne_eq, not_true_eq_false,
                     if_false, not_false_eq_true, if_true, ite_false,
                     ite_true] at hok
          cases hpk : client.getPublicKey v.name with
          | error err => rw [hpk] at hok; exact absurd hok (by simp)
          | ok pub =>
            rw [hpk] at hok
            dsimp only at hok
            cases hadd : b.addAsymmetricKey o v pub with
            | error err => rw [hadd] at hok; exact absurd hok (by simp)
            | ok bmid =>
              rw [hadd] at hok
              dsimp only at hok
              obtain ⟨hgen, hmap, hvs⟩ := ih bmid hok
              obtain ⟨hgen2, ⟨entry, hev, hentries⟩, p, hp, hm, hcert⟩ :=
                addAsymmetricKey_ok o b bmid v pub hadd
              have hret : retainedVersionsOfList o (Except.ok v :: rest) =
                  v :: retainedVersionsOfList o rest := by
                simp [retainedVersionsOfList, List.filterMap_cons, hstate, hdet]
              refine ⟨hgen.trans hgen2, ?_, ?_⟩
              · rw [hret, hmap, hentries, hev.symm]
                simp
              · intro w hw
                rw [hret] at hw
                rcases List.mem_cons.mp hw with hwv | hwrest
                · subst hwv
                  exact ⟨pub, hpk, p, hp, hm, fun hg => hcert hg⟩
                · have := hvs w hwrest
                  rwa [hgen2] at this
        · have hskip : loadVersionsFrom o client (Except.ok v :: rest) b =
              loadVersionsFrom o client rest b := by
            simp [loadVersionsFrom, hstate, hdet]
          rw [hskip] at hok
          have hret : retainedVersionsOfList o (Except.ok v :: rest) =
              retainedVersionsOfList o rest := by
            simp [retainedVersionsOfList, List.filterMap_cons, hstate, hdet]
          rw [hret]
          exact ih b hok
      · have hskip : loadVersionsFrom o client (Except.ok v :: rest) b =
            loadVersionsFrom o client rest b := by
          simp [loadVersionsFrom, hstate]
        rw [hskip] at hok
        have hret : retainedVersionsOfList o (Except.ok v :: rest) =
            retainedVersionsOfList o rest := by
          simp [retainedVersionsOfList, List.filterMap_cons, hstate]
        rw [hret]
        exact ih b hok

theorem loadStateFrom_ok (o : CryptoOracles) (client : KmsClient)
    (lst : List (Except Err CryptoKey)) (b b2 : ObjectStoreBuilder)
    (hok : loadStateFrom o client lst b = Except.ok b2) :
    b2.generateCerts = b.generateCerts ∧
    b2.asymmetricKeys.map (fun e => e.cryptoKeyVersion) =
      b.asymmetricKeys.map (fun e => e.cryptoKeyVersion) ++
        (retainedKeysOfList lst).flatMap (fun k =>
          retainedVersionsOfList o (client.listCryptoKeyVersions k.name)) ∧
    ∀ v ∈ (retainedKeysOfList lst).flatMap (fun k =>
          retainedVersionsOfList o (client.listCryptoKeyVersions k.name)),
      versionOraclesOk o client b.generateCerts v := by
  induction lst generalizing b with
  | nil =>
    have hb : b = b2 := by simpa [loadStateFrom] using hok
    subst hb
    simp [retainedKeysOfList]
  | cons e rest ih =>
    match e with
    | Except.error err => simp [loadStateFrom] at hok
    | Except.ok key =>
      by_cases hprot : key.versionTemplateProtectionLevel = PROTECTION_LEVEL_HSM
      · by_cases hpurp : key.purpose = PURPOSE_ASYMMETRIC_DECRYPT ∨
            key.purpose = PURPOSE_ASYMMETRIC_SIGN
        · have hstep : loadStateFrom o client (Except.ok key :: rest) b =
              match LoadVersions o client key b with
              | Except.error e => Except.error e
              | Except.ok b2 => loadStateFrom o client rest b2 := by
            simp [loadStateFrom, hprot, hpurp]
          rw [hstep] at hok
          cases hlv : LoadVersions o client key b with
          | error err => rw [hlv] at hok; exact absurd hok (by simp)
          | ok bmid =>
            rw [hlv] at hok
            dsimp only at hok
            obtain ⟨hgen, hmap, hvs⟩ := ih bmid hok
            obtain ⟨hgen2, hmap2, hvs2⟩ := loadVersionsFrom_ok o client _ b bmid hlv
            have hretk : retainedKeysOfList (Except.ok key :: rest) =
                key :: retainedKeysOfList rest := by
              simp [retainedKeysOfList, List.filterMap_cons, hprot, hpurp]
            refine ⟨hgen.trans hgen2, ?_, ?_⟩
            · rw [hretk, hmap, hmap2]
              simp
            · intro w hw
              rw [hretk] at hw
              simp only [List.flatMap_cons, List.mem_append] at hw
              rcases hw with hw1 | hw2
              · exact hvs2 w hw1
              · have := hvs w hw2
                rwa [hgen2] at this
        · have hskip : loadStateFrom o client (Except.ok key :: rest) b =
              loadStateFrom o client rest b := by
            simp only [loadStateFrom, hprot, ne_eq, not_true_eq_false, if_false]
            rw [if_neg hpurp]
          rw [hskip] at hok
          have hretk : retainedKeysOfList (Except.ok key :: rest) =
              retainedKeysOfList rest := by
            simp [retainedKeysOfList, List.filterMap_cons, hprot, hpurp]
          rw [hretk]
          exact ih b hok
      · have hskip : loadStateFrom o client (Except.ok key :: rest) b =
            loadStateFrom o client rest b := by
          simp [loadStateFrom, hprot]
        rw [hskip] at hok
        have hretk : retainedKeysOfList (Except.ok key :: rest) =
            retainedKeysOfList rest := by
          simp [retainedKeysOfList, List.filterMap_cons, hprot]
        rw [hretk]
        exact ih b hok

theorem builder_new_ok (o : CryptoOracles) (gen : Bool) (supply : List Nat)
    (b0 : ObjectStoreBuilder)
    (h : ObjectStoreBuilder.new o gen supply = Except.ok b0) :
    b0 = { generateCerts := gen, asymmetricKeys := [],
           allocatedHandles := [], handleSupply := supply } := by
  cases gen with
  | false =>
    have h2 : (Except.ok (ObjectStoreBuilder.mk false [] [] supply) :
          Except Err ObjectStoreBuilder) = Except.ok b0 := by
      simpa [ObjectStoreBuilder.new] using h
    exact (Except.ok.inj h2).symm
  | true =>
    unfold ObjectStoreBuilder.new at h
    simp only [if_true, ite_true] at h
    split at h
    · exact absurd h (by simp)
    · exact (Except.ok.inj h).symm

/-- C6: a successful load retains exactly the HSM-protected asymmetric
sign/decrypt keys and, within those, exactly the enabled versions with a
supported algorithm mapping (and on success every collaborator call for a
retained version succeeded, so any fetch, parse, marshal or
certificate-generation failure makes the load abort); a non-HSM or
wrong-purpose key is skipped and loading continues; a disabled or
unsupported-algorithm version is skipped and loading continues; a failing
public key fetch aborts the load propagating the fetch error; and a failing
PEM parse makes AddAsymmetricKey propagate the parse error, which aborts the
load. -/
theorem object_store_load_filtering (o : CryptoOracles) (client : KmsClient)
    (keyRingName : String) (gen : Bool) (supply : List Nat) :
    (∀ st : ObjectStoreState,
      LoadState o client keyRingName gen supply = Except.ok st →
      st.map (fun e => e.cryptoKeyVersion) =
        specRetainedVersions o client keyRingName ∧
      ∀ v ∈ specRetainedVersions o client keyRingName,
        versionOraclesOk o client gen v) ∧
    (∀ (key : CryptoKey) (rest : List (Except Err CryptoKey))
        (b : ObjectStoreBuilder),
      (key.versionTemplateProtectionLevel ≠ PROTECTION_LEVEL_HSM ∨
       (key.purpose ≠ PURPOSE_ASYMMETRIC_DECRYPT ∧
        key.purpose ≠ PURPOSE_ASYMMETRIC_SIGN)) →
      loadStateFrom o client (Except.ok key :: rest) b =
        loadStateFrom o client rest b) ∧
    (∀ (v : CryptoKeyVersion) (rest : List (Except Err CryptoKeyVersion))
        (b : ObjectStoreBuilder),
      (v.state ≠ CKV_STATE_ENABLED ∨ (o.getDetails v.algorithm).isOk = false) →
      loadVersionsFrom o client (Except.ok v :: rest) b =
        loadVersionsFrom o client rest b) ∧
    (∀ (v : CryptoKeyVersion) (rest : List (Except Err CryptoKeyVersion))
        (b : ObjectStoreBuilder) (e : Err),
      v.state = CKV_STATE_ENABLED → (o.getDetails v.algorithm).isOk = true →
      client.getPublicKey v.name = Except.error e →
      loadVersionsFrom o client (Except.ok v :: rest) b = Except.error e) ∧
    (∀ (b : ObjectStoreBuilder) (ckv : CryptoKeyVersion) (pub : PublicKey)
        (e : Err),
      o.parseX509PublicKeyPem pub.pem = Except.error e →
      b.addAsymmetricKey o ckv pub = Except.error e) ∧
    (∀ (v : CryptoKeyVersion) (rest : List (Except Err CryptoKeyVersion))
        (b : ObjectStoreBuilder) (pub : PublicKey) (e : Err),
      v.state = CKV_STATE_ENABLED → (o.getDetails v.algorithm).isOk = true →
      client.getPublicKey v.name = Except.ok pub →
      b.addAsymmetricKey o v pub = Except.error e →
      loadVersionsFrom o client (Except.ok v :: rest) b = Except.error e) := by
  refine ⟨?_, ?_, ?_, ?_, ?_, ?_⟩
  · intro st hok
    unfold LoadState at hok
    cases hb0 : ObjectStoreBuilder.new o gen supply with
    | error e => rw [hb0] at hok; exact absurd hok (by simp)
    | ok b0 =>
      rw [hb0] at hok
      dsimp only at hok
      cases hls : loadStateFrom o client (client.listCryptoKeys keyRingName) b0 with
      | error e => rw [hls] at hok; exact absurd hok (by simp)
      | ok bfin =>
        rw [hls] at hok
        dsimp only at hok
        have hst : bfin.asymmetricKeys = st := (Except.ok.injEq _ _).mp hok
        obtain ⟨hgen, hmap, hvs⟩ := loadStateFrom_ok o client _ b0 bfin hls
        have hb0eq := builder_new_ok o gen supply b0 hb0
        subst hb0eq
        subst hst
        constructor
        · simpa [specRetainedVersions] using hmap
        · intro v hv
          exact hvs v (by simpa [specRetainedVersions] using hv)
  · intro key rest b hbad
    rcases hbad with hprot | ⟨hd, hs⟩
    · simp [loadStateFrom, hprot]
    · by_cases hprot : key.versionTemplateProtectionLevel = PROTECTION_LEVEL_HSM
      · simp only [loadStateFrom, hprot, ne_eq, not_true_eq_false, if_false,
                   ite_false]
        rw [if_neg (by rintro (h | h) <;> [exact hd h; exact hs h])]
      · simp [loadStateFrom, hprot]
  · intro v rest b hbad
    rcases hbad with hstate | hdet
    · simp [loadVersionsFrom, hstate]
    · simp [loadVersionsFrom, hdet]
  · intro v rest b e hstate hdet hpk
    simp [loadVersionsFrom, hstate, hdet, hpk]
  · intro b ckv pub e hparse
    simp [ObjectStoreBuilder.addAsymmetricKey, hparse]
  · intro v rest b pub e hstate hdet hpk hadd
    simp [loadVersionsFrom, hstate, hdet, hpk, hadd]

/-- Concrete KMS client for the load witness: one key ring listing an
HSM signing key and a software-protected key, two versions (one enabled,
one disabled), and an always-available public key. -/
def witKmsClient : KmsClient :=
  { listCryptoKeys := fun _ =>
      [Except.ok { name := "k1", versionTemplateProtectionLevel := 2, purpose := 5 },
       Except.ok { name := "k2", versionTemplateProtectionLevel := 1, purpose := 5 }],
    listCryptoKeyVersions := fun _ =>
      [Except.ok { name := "v1", state := 1, algorithm := 12 },
       Except.ok { name := "v2", state := 2, algorithm := 12 }],
    getPublicKey := fun _ => Except.ok { pem := "pem" } }

/-- Concrete oracles for the load witness: algorithm 12 is the only supported
algorithm, and all cryptographic collaborator calls succeed. -/
def witOracles : CryptoOracles :=
  { certAuthorityNew := Except.ok (),
    getDetails := fun a =>
      if a = 12 then Except.ok ()
      else Except.error { kind := ErrorKind.notSupported, code := 0 },
    parseX509PublicKeyPem := fun _ => Except.ok 0,
    marshalX509PublicKeyDer := fun _ => Except.ok [1],
    generateCert := fun _ _ => Except.ok 0,
    marshalX509CertificateDer := fun _ => Except.ok [2],
    parseX509PublicKeyDer := fun _ => Except.ok 0,
    parseX509CertificateDer := fun _ => Except.ok 0 }

/-- The single snapshot entry the witness load produces. -/
def witEntry : AsymmetricKey :=
  { cryptoKeyVersion := { name := "v1", state := 1, algorithm := 12 },
    privateKeyHandle := 10, publicKeyHandle := 11,
    publicKeyDer := [1], certificate := none }

/-- Witness for C6: a concrete load over the witness client succeeds, retains
exactly the single enabled HSM version, and every collaborator call for it
succeeded. -/
theorem object_store_load_filtering_witness :
    ([witEntry] : ObjectStoreState).map (fun e => e.cryptoKeyVersion) =
      specRetainedVersions witOracles witKmsClient "kr" ∧
    ∀ v ∈ specRetainedVersions witOracles witKmsClient "kr",
      versionOraclesOk witOracles witKmsClient false v :=
  (object_store_load_filtering witOracles witKmsClient "kr" false [10, 11]).1
    [witEntry] rfl

/-! ## Object store materialization: kmsp11/token.cc (LoadObjects)

LoadObjects takes only the snapshot (no KMS client): it parses the stored DER
material and registers the reconstructed objects at the snapshot's handles via
HandleMap::AddDirect exclusively. -/

/-- CKO_CERTIFICATE object class value. -/
def CKO_CERTIFICATE : Nat := 1
/-- CKO_PUBLIC_KEY object class value. -/
def CKO_PUBLIC_KEY : Nat := 2
/-- CKO_PRIVATE_KEY object class value. -/
def CKO_PRIVATE_KEY : Nat := 3

/-- Modelled from the spec: the kmsp11 Object (object.h/object.cc are not
among the sources here) carries the remote key version identity
(kms_key_name) and the PKCS#11 object class. -/
structure Object where
  kmsKeyName : String
  objectClass : Nat
  deriving DecidableEq, Repr

/-- Modelled from the spec: Object::NewKeyPair reconstructs the public and
private Key Objects bound to one crypto key version. -/
def newKeyPair (ckv : CryptoKeyVersion) : Object × Object :=
  ({ kmsKeyName := ckv.name, objectClass := CKO_PUBLIC_KEY },
   { kmsKeyName := ckv.name, objectClass := CKO_PRIVATE_KEY })

/-- Modelled from the spec: Object::NewCertificate reconstructs the
certificate object bound to one crypto key version. -/
def newCertificate (ckv : CryptoKeyVersion) : Object :=
  { kmsKeyName := ckv.name, objectClass := CKO_CERTIFICATE }

/-- The loop body of LoadObjects: for each snapshot entry parse the stored
public key DER, register the public then the private object at the stored
handles by AddDirect, and when a certificate is present parse its DER and
register it likewise; any parse or AddDirect failure aborts. -/
def loadObjectsFrom (o : CryptoOracles) :
    List AsymmetricKey → HandleMap Object → Except Err (HandleMap Object)
  | [], m => Except.ok m
  | key :: rest, m =>
    match o.parseX509PublicKeyDer key.publicKeyDer with
    | Except.error e => Except.error e
    | Except.ok _ =>
      match m.addDirect key.publicKeyHandle (newKeyPair key.cryptoKeyVersion).1 with
      | Except.error e => Except.error e
      | Except.ok m1 =>
        match m1.addDirect key.privateKeyHandle (newKeyPair key.cryptoKeyVersion).2 with
        | Except.error e => Except.error e
        | Except.ok m2 =>
          match key.certificate with
          | none => loadObjectsFrom o rest m2
          | some cert =>
            match o.parseX509CertificateDer cert.x509Der with
            | Except.error e => Except.error e
            | Except.ok _ =>
              match m2.addDirect cert.handle (newCertificate key.cryptoKeyVersion) with
              | Except.error e => Except.error e
              | Except.ok m3 => loadObjectsFrom o rest m3

/-- LoadObjects: materialize a snapshot into a fresh handle map configured
with CKR_OBJECT_HANDLE_INVALID as its not-found code. -/
def LoadObjects (o : CryptoOracles) (state : ObjectStoreState) :
    Except Err (HandleMap Object) :=
  loadObjectsFrom o state (HandleMap.new CKR_OBJECT_HANDLE_INVALID)

/-- The handle-to-object bindings of one snapshot entry, in registration
order. -/
def entryBindings (key : AsymmetricKey) : List (Nat × Object) :=
  [(key.publicKeyHandle, (newKeyPair key.cryptoKeyVersion).1),
   (key.privateKeyHandle, (newKeyPair key.cryptoKeyVersion).2)] ++
  (match key.certificate with
   | none => []
   | some cert => [(cert.handle, newCertificate key.cryptoKeyVersion)])

/-- The handle-to-object bindings of a whole snapshot, in registration
order. -/
def stateBindings (state : ObjectStoreState) : List (Nat × Object) :=
  state.flatMap entryBindings

theorem loadObjectsFrom_ok (o : CryptoOracles) (lst : List AsymmetricKey)
    (m m' : HandleMap Object) (hok : loadObjectsFrom o lst m = Except.ok m') :
    (m'.items = (stateBindings lst).reverse ++ m.items ∧
     m'.notFoundRv = m.notFoundRv) ∧
    (m.Reachable → m'.Reachable) ∧
    ∀ key ∈ lst, (o.parseX509PublicKeyDer key.publicKeyDer).isOk = true ∧
      ∀ cert, key.certificate = some cert →
        (o.parseX509CertificateDer cert.x509Der).isOk = true := by
  induction lst generalizing m with
  | nil =>
    have hb : m = m' := by simpa [loadObjectsFrom] using hok
    subst hb
    simp [stateBindings]
  | cons key rest ih =>
    rw [loadObjectsFrom] at hok
    cases hparse : o.parseX509PublicKeyDer key.publicKeyDer with
    | error e => rw [hparse] at hok; exact absurd hok (by simp)
    | ok p =>
      rw [hparse] at hok
      dsimp only at hok
      cases hd1 : m.addDirect key.publicKeyHandle (newKeyPair key.cryptoKeyVersion).1 with
      | error e => rw [hd1] at hok; exact absurd hok (by simp)
      | ok m1 =>
        rw [hd1] at hok
        dsimp only at hok
        cases hd2 : m1.addDirect key.privateKeyHandle (newKeyPair key.cryptoKeyVersion).2 with
        | error e => rw [hd2] at hok; exact absurd hok (by simp)
        | ok m2 =>
          rw [hd2] at hok
          dsimp only at hok
          obtain ⟨hm1f, hm1⟩ := HandleMap.addDirect_ok m _ _ m1 hd1
          obtain ⟨hm2f, hm2⟩ := HandleMap.addDirect_ok m1 _ _ m2 hd2
          have hreach2 : m.Reachable → m2.Reachable := fun hr =>
            HandleMap.Reachable.addDirect m1 _ _ m2
              (HandleMap.Reachable.addDirect m _ _ m1 hr hd1) hd2
          cases hcert : key.certificate with
          | none =>
            rw [hcert] at hok
            dsimp only at hok
            obtain ⟨⟨hitems, hrv⟩, hreach, hrest⟩ := ih m2 hok
            refine ⟨⟨?_, ?_⟩, fun hr => hreach (hreach2 hr), ?_⟩
            · rw [hitems, hm2, hm1]
              simp [stateBindings, entryBindings, hcert, List.flatMap_cons]
            · rw [hrv, hm2, hm1]
            · intro k hk
              rcases List.mem_cons.mp hk with hk1 | hk2
              · subst hk1
                refine ⟨by rw [hparse]; rfl, ?_⟩
                intro cert hcc
                rw [hcert] at hcc
                exact absurd hcc (by simp)
              · exact hrest k hk2
          | some cert =>
            rw [hcert] at hok
            dsimp only at hok
            cases hparsec : o.parseX509CertificateDer cert.x509Der with
            | error e => rw [hparsec] at hok; exact absurd hok (by simp)
            | ok x =>
              rw [hparsec] at hok
              dsimp only at hok
              cases hd3 : m2.addDirect cert.handle (newCertificate key.cryptoKeyVersion) with
              | error e => rw [hd3] at hok; exact absurd hok (by simp)
              | ok m3 =>
                rw [hd3] at hok
                dsimp only at hok
                obtain ⟨hm3f, hm3⟩ := HandleMap.addDirect_ok m2 _ _ m3 hd3
                obtain ⟨⟨hitems, hrv⟩, hreach, hrest⟩ := ih m3 hok
                refine ⟨⟨?_, ?_⟩, ?_, ?_⟩
                · rw [hitems, hm3, hm2, hm1]
                  simp [stateBindings, entryBindings, hcert, List.flatMap_cons]
                · rw [hrv, hm3, hm2, hm1]
                · intro hr
                  exact hreach (HandleMap.Reachable.addDirect m2 _ _ m3 (hreach2 hr) hd3)
                · intro k hk
                  rcases List.mem_cons.mp hk with hk1 | hk2
                  · subst hk1
                    refine ⟨by rw [hparse]; rfl, ?_⟩
                    intro c hcc
                    rw [hcert] at hcc
                    have : cert = c := by simpa using hcc
                    subst this
                    rw [hparsec]; rfl
                  · exact hrest k hk2

theorem find_entry_of_mem {T : Type} (items : List (Nat × T)) (h : Nat) (obj : T)
    (hmem : (h, obj) ∈ items) (hnd : (items.map Prod.fst).Nodup) :
    items.find? (fun p => p.fst = h) = some (h, obj) := by
  induction items with
  | nil => simp at hmem
  | cons kv rest ih =>
    obtain ⟨k, v⟩ := kv
    rw [List.map_cons, List.nodup_cons] at hnd
    by_cases hk : k = h
    · subst hk
      have hov : obj = v := by
        rcases List.mem_cons.mp hmem with h1 | h2
        · exact congrArg Prod.snd h1
        · exact absurd (List.mem_map.mpr ⟨(k, obj), h2, rfl⟩) hnd.1
      subst hov
      simp [List.find?]
    · have hmem2 : (h, obj) ∈ rest := by
        rcases List.mem_cons.mp hmem with h1 | h2
        · exact absurd (congrArg Prod.fst h1).symm hk
        · exact h2
      rw [List.find?_cons_of_neg _ (by simp [hk])]
      exact ih hmem2 hnd.2

theorem handleMap_get_of_mem {T : Type} (m : HandleMap T) (h : Nat) (obj : T)
    (hmem : (h, obj) ∈ m.items) (hnd : m.keys.Nodup) :
    m.get h = Except.ok obj := by
  unfold HandleMap.get
  rw [find_entry_of_mem m.items h obj hmem hnd]

/-- C7: materializing a snapshot that loads successfully produces a registry
whose bindings are exactly the snapshot's stored handle-to-object bindings
(so re-materializing the same snapshot yields identical bindings — LoadObjects
is a pure function of the snapshot and takes no KMS client, and every
registration goes through AddDirect, never random allocation): each entry's
public, private and (when present) certificate objects resolve at exactly the
stored handles; on success every stored DER parsed successfully; and a DER
parse failure of an entry aborts materialization propagating the parse
error. -/
theorem object_store_materialize_bindings (o : CryptoOracles)
    (state : ObjectStoreState) :
    (∀ m : HandleMap Object, LoadObjects o state = Except.ok m →
      m.items = (stateBindings state).reverse ∧
      (∀ key ∈ state,
        m.get key.publicKeyHandle = Except.ok (newKeyPair key.cryptoKeyVersion).1 ∧
        m.get key.privateKeyHandle = Except.ok (newKeyPair key.cryptoKeyVersion).2 ∧
        ∀ cert, key.certificate = some cert →
          m.get cert.handle = Except.ok (newCertificate key.cryptoKeyVersion)) ∧
      (∀ key ∈ state, (o.parseX509PublicKeyDer key.publicKeyDer).isOk = true ∧
        ∀ cert, key.certificate = some cert →
          (o.parseX509CertificateDer cert.x509Der).isOk = true)) ∧
    (∀ (key : AsymmetricKey) (rest : List AsymmetricKey) (m : HandleMap Object)
        (e : Err),
      o.parseX509PublicKeyDer key.publicKeyDer = Except.error e →
      loadObjectsFrom o (key :: rest) m = Except.error e) := by
  constructor
  · intro m hok
    unfold LoadObjects at hok
    obtain ⟨⟨hitems, _⟩, hreach, hparse⟩ :=
      loadObjectsFrom_ok o state (HandleMap.new CKR_OBJECT_HANDLE_INVALID) m hok
    have hitems2 : m.items = (stateBindings state).reverse := by
      simpa [HandleMap.new] using hitems
    have hnd : m.keys.Nodup :=
      HandleMap.reachable_keys_nodup m
        (hreach (HandleMap.Reachable.new CKR_OBJECT_HANDLE_INVALID))
    refine ⟨hitems2, ?_, hparse⟩
    intro key hkey
    have hmemOf : ∀ b ∈ entryBindings key, b ∈ m.items := fun b hb => by
      rw [hitems2, List.mem_reverse]
      exact List.mem_flatMap.mpr ⟨key, hkey, hb⟩
    refine ⟨?_, ?_, ?_⟩
    · exact handleMap_get_of_mem m _ _
        (hmemOf _ (by simp [entryBindings])) hnd
    · exact handleMap_get_of_mem m _ _
        (hmemOf _ (by simp [entryBindings])) hnd
    · intro cert hcc
      exact handleMap_get_of_mem m _ _
        (hmemOf _ (by simp [entryBindings, hcc])) hnd
  · intro key rest m e hparse
    simp [loadObjectsFrom, hparse]

/-- The registry materialized from the single-entry witness snapshot. -/
def witMaterialized : HandleMap Object :=
  { notFoundRv := CKR_OBJECT_HANDLE_INVALID,
    items := [(10, { kmsKeyName := "v1", objectClass := CKO_PRIVATE_KEY }),
              (11, { kmsKeyName := "v1", objectClass := CKO_PUBLIC_KEY })] }

/-- Witness for C7: materializing the concrete single-entry snapshot yields
exactly the snapshot's stored bindings. -/
theorem object_store_materialize_bindings_witness :
    witMaterialized.items = (stateBindings [witEntry]).reverse :=
  ((object_store_materialize_bindings witOracles [witEntry]).1
    witMaterialized rfl).1

/-! ## Token::FindObjects: kmsp11/token.cc

FindObjects delegates to the registry's Find with the fixed comparator:
primary order by kms_key_name, secondary order by object_class when the names
match. -/

/-- The comparator lambda of Token::FindObjects. -/
def objectLt (o1 o2 : Object) : Bool :=
  if o1.kmsKeyName = o2.kmsKeyName then decide (o1.objectClass < o2.objectClass)
  else decide (o1.kmsKeyName < o2.kmsKeyName)

/-- Token::FindObjects over the token's object registry. -/
def Token.findObjects (objects : HandleMap Object) (predicate : Object → Bool) :
    List Nat :=
  objects.find predicate objectLt

theorem objectLt_false_elim (o1 o2 : Object) (h : objectLt o2 o1 = false) :
    o1.kmsKeyName < o2.kmsKeyName ∨
    (o1.kmsKeyName = o2.kmsKeyName ∧ o1.objectClass ≤ o2.objectClass) := by
  unfold objectLt at h
  by_cases hn : o2.kmsKeyName = o1.kmsKeyName
  · rw [if_pos hn] at h
    exact Or.inr ⟨hn.symm, not_lt.mp (of_decide_eq_false h)⟩
  · rw [if_neg hn] at h
    exact Or.inl (lt_of_le_of_ne (not_lt.mp (of_decide_eq_false h))
      (fun he => hn he.symm))

theorem objectLt_false_intro (o1 o2 : Object)
    (h : o1.kmsKeyName < o2.kmsKeyName ∨
      (o1.kmsKeyName = o2.kmsKeyName ∧ o1.objectClass ≤ o2.objectClass)) :
    objectLt o2 o1 = false := by
  unfold objectLt
  rcases h with h | ⟨he, hc⟩
  · rw [if_neg (fun heq => absurd heq.symm (ne_of_lt h))]
    exact decide_eq_false (not_lt.mpr (le_of_lt h))
  · rw [if_pos he.symm]
    exact decide_eq_false (by omega)

theorem objectLt_false_trans (a b c : Object) (hba : objectLt b a = false)
    (hcb : objectLt c b = false) : objectLt c a = false := by
  apply objectLt_false_intro
  rcases objectLt_false_elim a b hba with h1 | ⟨h1e, h1c⟩
  · rcases objectLt_false_elim b c hcb with h2 | ⟨h2e, _⟩
    · exact Or.inl (lt_trans h1 h2)
    · exact Or.inl (h2e ▸ h1)
  · rcases objectLt_false_elim b c hcb with h2 | ⟨h2e, h2c⟩
    · exact Or.inl (h1e ▸ h2)
    · exact Or.inr ⟨h1e.trans h2e, le_trans h1c h2c⟩

theorem objectLt_asymm (o1 o2 : Object) (h1 : objectLt o1 o2 = true)
    (h2 : objectLt o2 o1 = true) : False := by
  unfold objectLt at h1 h2
  by_cases hn : o1.kmsKeyName = o2.kmsKeyName
  · rw [if_pos hn] at h1
    rw [if_pos hn.symm] at h2
    have := of_decide_eq_true h1
    have := of_decide_eq_true h2
    omega
  · rw [if_neg hn] at h1
    rw [if_neg (fun h => hn h.symm)] at h2
    exact absurd (of_decide_eq_true h1)
      (not_lt.mpr (le_of_lt (of_decide_eq_true h2)))

theorem sortLe_objectLt_trans (m : HandleMap Object) :
    ∀ h1 h2 h3, m.sortLe objectLt h1 h2 = true → m.sortLe objectLt h2 h3 = true →
      m.sortLe objectLt h1 h3 = true := by
  intro h1 h2 h3 hab hbc
  unfold HandleMap.sortLe at hab hbc ⊢
  cases e1 : m.items.find? (fun p => p.fst = h1) with
  | none => rfl
  | some p1 =>
    rw [e1] at hab
    cases e3 : m.items.find? (fun p => p.fst = h3) with
    | none =>
      rw [e3] at hbc
      cases e2 : m.items.find? (fun p => p.fst = h2) with
      | none => rw [e2] at hab; exact absurd hab (by simp)
      | some p2 => rw [e2] at hbc; exact absurd hbc (by simp)
    | some p3 =>
      rw [e3] at hbc
      cases e2 : m.items.find? (fun p => p.fst = h2) with
      | none => rw [e2] at hab; exact absurd hab (by simp)
      | some p2 =>
        rw [e2] at hab hbc
        dsimp only at hab hbc ⊢
        have hba : objectLt p2.snd p1.snd = false := by simpa using hab
        have hcb : objectLt p3.snd p2.snd = false := by simpa using hbc
        simpa using objectLt_false_trans p1.snd p2.snd p3.snd hba hcb

theorem sortLe_objectLt_total (m : HandleMap Object) :
    ∀ h1 h2, (m.sortLe objectLt h1 h2 || m.sortLe objectLt h2 h1) = true := by
  intro h1 h2
  unfold HandleMap.sortLe
  cases e1 : m.items.find? (fun p => p.fst = h1) with
  | none => rfl
  | some p1 =>
    cases e2 : m.items.find? (fun p => p.fst = h2) with
    | none => rfl
    | some p2 =>
      dsimp only
      cases hlt : objectLt p2.snd p1.snd with
      | false => rfl
      | true =>
        cases hlt2 : objectLt p1.snd p2.snd with
        | false => simp
        | true => exact (objectLt_asymm p1.snd p2.snd hlt2 hlt).elim

theorem get_ok_find {T : Type} (m : HandleMap T) (h : Nat) (o : T)
    (hg : m.get h = Except.ok o) :
    ∃ p, m.items.find? (fun p => p.fst = h) = some p ∧ p.snd = o := by
  unfold HandleMap.get at hg
  cases e : m.items.find? (fun p => p.fst = h) with
  | none => rw [e] at hg; exact absurd hg (by simp)
  | some p =>
    rw [e] at hg
    dsimp only at hg
    exact ⟨p, rfl, Except.ok.inj hg⟩

/-- C9: Token::FindObjects returns a permutation of the handles of exactly
the objects satisfying the predicate, and the returned sequence is ordered
primarily by the object's kms_key_name (lexicographic) and, when the names
match, by the provider's canonical object class order (ascending
CK_OBJECT_CLASS). -/
theorem token_find_objects_ordering (m : HandleMap Object)
    (predicate : Object → Bool) :
    (Token.findObjects m predicate).Perm
      ((m.items.filter (fun p => predicate p.snd)).map Prod.fst) ∧
    (Token.findObjects m predicate).Pairwise (fun h1 h2 =>
      ∀ o1 o2, m.get h1 = Except.ok o1 → m.get h2 = Except.ok o2 →
        o1.kmsKeyName < o2.kmsKeyName ∨
        (o1.kmsKeyName = o2.kmsKeyName ∧ o1.objectClass ≤ o2.objectClass)) := by
  constructor
  · exact List.mergeSort_perm _ _
  · have hp := @List.sorted_mergeSort Nat (m.sortLe objectLt)
      (sortLe_objectLt_trans m) (sortLe_objectLt_total m)
      ((m.items.filter (fun p => predicate p.snd)).map Prod.fst)
    refine hp.imp ?_
    intro h1 h2 hle o1 o2 hg1 hg2
    obtain ⟨p1, hf1, hp1⟩ := get_ok_find m h1 o1 hg1
    obtain ⟨p2, hf2, hp2⟩ := get_ok_find m h2 o2 hg2
    unfold HandleMap.sortLe at hle
    rw [hf1, hf2] at hle
    dsimp only at hle
    have hfalse : objectLt p2.snd p1.snd = false := by simpa using hle
    rw [hp1, hp2] at hfalse
    exact objectLt_false_elim o1 o2 hfalse

/-- A concrete registry for the FindObjects witness: two identities, the
second with both halves present, listed out of order. -/
def witFindMap : HandleMap Object :=
  { notFoundRv := CKR_OBJECT_HANDLE_INVALID,
    items := [(4, { kmsKeyName := "b", objectClass := CKO_PRIVATE_KEY }),
              (5, { kmsKeyName := "a", objectClass := CKO_PRIVATE_KEY }),
              (6, { kmsKeyName := "a", objectClass := CKO_PUBLIC_KEY })] }

/-- Witness for C9 at a concrete registry and the all-accepting predicate. -/
theorem token_find_objects_ordering_witness :
    (Token.findObjects witFindMap (fun _ => true)).Perm
      ((witFindMap.items.filter (fun p => (fun _ => true) p.snd)).map Prod.fst) ∧
    (Token.findObjects witFindMap (fun _ => true)).Pairwise (fun h1 h2 =>
      ∀ o1 o2, witFindMap.get h1 = Except.ok o1 →
        witFindMap.get h2 = Except.ok o2 →
        o1.kmsKeyName < o2.kmsKeyName ∨
        (o1.kmsKeyName = o2.kmsKeyName ∧ o1.objectClass ≤ o2.objectClass)) :=
  token_find_objects_ordering witFindMap (fun _ => true)

/-! ## CNG provider bridge: kmscng/main/bridge.cc

The bridge validates handles, null pointers and flags in a fixed order, then
performs the operation.  Nullable pointers are modelled as Option/Bool
presence flags; out-parameter writes are modelled by a result record where
`none` means the location was left untouched.  Provider and key objects live
in an explicit registry state (handles are raw object pointers in the
source). -/

def NTE_BAD_FLAGS : Nat := 0x80090009
def NTE_BAD_KEYSET : Nat := 0x80090016
def NTE_INVALID_HANDLE : Nat := 0x80090026
def NTE_INVALID_PARAMETER : Nat := 0x80090027
def NTE_BUFFER_TOO_SMALL : Nat := 0x80090028
def NTE_NOT_SUPPORTED : Nat := 0x80090029

def NCRYPT_MACHINE_KEY_FLAG : Nat := 0x20
def NCRYPT_SILENT_FLAG : Nat := 0x40
def AT_KEYEXCHANGE : Nat := 1
def AT_SIGNATURE : Nat := 2

/-- ValidateFlags: only 0 and NCRYPT_SILENT_FLAG are accepted. -/
def ValidateFlags (flags : Nat) : Except Err Unit :=
  if flags ≠ 0 ∧ flags ≠ NCRYPT_SILENT_FLAG then
    Except.error { kind := ErrorKind.invalidArgument, code := NTE_BAD_FLAGS }
  else
    Except.ok ()

/-- A CNG Provider: its mutable property table (property values are byte
strings). -/
structure CngProvider where
  properties : List (String × List Nat)
  deriving DecidableEq, Repr

/-- A CNG key object: the provider handle it was opened under, its KMS key
name, and its property table. -/
structure CngKeyObject where
  providerHandle : Nat
  keyName : String
  properties : List (String × List Nat)
  deriving DecidableEq, Repr

/-- The live provider and key objects, keyed by their handles. -/
structure CngState where
  providers : List (Nat × CngProvider)
  keys : List (Nat × CngKeyObject)
  deriving DecidableEq, Repr

/-- Modelled from the spec: ValidateProviderHandle (kmscng/provider.cc is not
among the sources here) rejects a null handle and a handle that does not
resolve to a live Provider with NTE_INVALID_HANDLE. -/
def ValidateProviderHandle (st : CngState) (hProvider : Nat) :
    Except Err CngProvider :=
  if hProvider = 0 then
    Except.error { kind := ErrorKind.invalidHandle, code := NTE_INVALID_HANDLE }
  else
    match st.providers.find? (fun p => p.fst = hProvider) with
    | none =>
      Except.error { kind := ErrorKind.invalidHandle, code := NTE_INVALID_HANDLE }
    | some p => Except.ok p.snd

/-- Modelled from the spec: ValidateKeyHandle (kmscng/object.cc is not among
the sources here) validates the provider handle, then rejects a null or
unknown key handle and a key object whose back-reference is to a different
provider, with NTE_INVALID_HANDLE. -/
def ValidateKeyHandle (st : CngState) (hProvider hKey : Nat) :
    Except Err CngKeyObject :=
  match ValidateProviderHandle st hProvider with
  | Except.error e => Except.error e
  | Except.ok _ =>
    if hKey = 0 then
      Except.error { kind := ErrorKind.invalidHandle, code := NTE_INVALID_HANDLE }
    else
      match st.keys.find? (fun p => p.fst = hKey) with
      | none =>
        Except.error { kind := ErrorKind.invalidHandle, code := NTE_INVALID_HANDLE }
      | some p =>
        if p.snd.providerHandle = hProvider then Except.ok p.snd
        else
          Except.error { kind := ErrorKind.invalidHandle,
                         code := NTE_INVALID_HANDLE }

/-- Modelled from the spec: Provider::GetProperty (kmscng/provider.cc is not
among the sources here) returns the stored value of a known property and
fails NTE_NOT_SUPPORTED on an unknown property name. -/
def CngProvider.getProperty (prov : CngProvider) (name : String) :
    Except Err (List Nat) :=
  match prov.properties.find? (fun p => p.fst = name) with
  | none => Except.error { kind := ErrorKind.notSupported, code := NTE_NOT_SUPPORTED }
  | some p => Except.ok p.snd

/-- Modelled from the spec: Object::GetProperty (kmscng/object.cc is not
among the sources here) returns the stored value of a known property and
fails NTE_NOT_SUPPORTED on an unknown property name. -/
def CngKeyObject.getProperty (obj : CngKeyObject) (name : String) :
    Except Err (List Nat) :=
  match obj.properties.find? (fun p => p.fst = name) with
  | none => Except.error { kind := ErrorKind.notSupported, code := NTE_NOT_SUPPORTED }
  | some p => Except.ok p.snd

/-- The observable effect of one buffer-convention bridge call: its status,
what was written to the size out-parameter (pcbResult), and what was written
into the caller's output buffer; `none` means the location was left
untouched. -/
structure BufferOut where
  status : Except Err Unit
  sizeWritten : Option Nat
  dataWritten : Option (List Nat)
  deriving Repr

/-- GetProviderProperty: validate the provider handle, the property-name and
size-output pointers, and the flags; look the property up; write the required
size; succeed if the output buffer is null; fail NTE_BUFFER_TOO_SMALL if the
buffer is too small (writing no data); otherwise copy the value. -/
def GetProviderProperty (st : CngState) (hProvider : Nat)
    (pszProperty : Option String) (pbOutputPresent : Bool) (cbOutput : Nat)
    (pcbResultPresent : Bool) (dwFlags : Nat) : BufferOut :=
  match ValidateProviderHandle st hProvider with
  | Except.error e => { status := Except.error e, sizeWritten := none, dataWritten := none }
  | Except.ok prov =>
    match pszProperty with
    | none =>
      { status := Except.error { kind := ErrorKind.invalidArgument,
                                 code := NTE_INVALID_PARAMETER },
        sizeWritten := none, dataWritten := none }
    | some name =>
      if ¬ pcbResultPresent then
        { status := Except.error { kind := ErrorKind.invalidArgument,
                                   code := NTE_INVALID_PARAMETER },
          sizeWritten := none, dataWritten := none }
      else
        match ValidateFlags dwFlags with
        | Except.error e =>
          { status := Except.error e, sizeWritten := none, dataWritten := none }
        | Except.ok _ =>
          match prov.getProperty name with
          | Except.error e =>
            { status := Except.error e, sizeWritten := none, dataWritten := none }
          | Except.ok value =>
            if ¬ pbOutputPresent then
              { status := Except.ok (), sizeWritten := some value.length,
                dataWritten := none }
            else if cbOutput < value.length then
              { status := Except.error { kind := ErrorKind.outOfRange,
                                         code := NTE_BUFFER_TOO_SMALL },
                sizeWritten := some value.length, dataWritten := none }
            else
              { status := Except.ok (), sizeWritten := some value.length,
                dataWritten := some value }

/-- GetKeyProperty: like GetProviderProperty, with the key handle validated
against the provider handle and the property read from the key object. -/
def GetKeyProperty (st : CngState) (hProvider hKey : Nat)
    (pszProperty : Option String) (pbOutputPresent : Bool) (cbOutput : Nat)
    (pcbResultPresent : Bool) (dwFlags : Nat) : BufferOut :=
  match ValidateKeyHandle st hProvider hKey with
  | Except.error e => { status := Except.error e, sizeWritten := none, dataWritten := none }
  | Except.ok object =>
    match pszProperty with
    | none =>
      { status := Except.error { kind := ErrorKind.invalidArgument,
                                 code := NTE_INVALID_PARAMETER },
        sizeWritten := none, dataWritten := none }
    | some name =>
      if ¬ pcbResultPresent then
        { status := Except.error { kind := ErrorKind.invalidArgument,
                                   code := NTE_INVALID_PARAMETER },
          sizeWritten := none, dataWritten := none }
      else
        match ValidateFlags dwFlags with
        | Except.error e =>
          { status := Except.error e, sizeWritten := none, dataWritten := none }
        | Except.ok _ =>
          match object.getProperty name with
          | Except.error e =>
            { status := Except.error e, sizeWritten := none, dataWritten := none }
          | Except.ok value =>
            if ¬ pbOutputPresent then
              { status := Except.ok (), sizeWritten := some value.length,
                dataWritten := none }
            else if cbOutput < value.length then
              { status := Except.error { kind := ErrorKind.outOfRange,
                                         code := NTE_BUFFER_TOO_SMALL },
                sizeWritten := some value.length, dataWritten := none }
            else
              { status := Except.ok (), sizeWritten := some value.length,
                dataWritten := some value }

/-- The signing collaborators of SignHash (kmscng/operation/sign_utils.cc is
not among the sources here): the key precondition check against the expected
algorithm details, the expected signature length, and the remote signing
call. -/
structure SignOracles where
  validateKeyPreconditions : CngKeyObject → Except Err Unit
  signatureLength : CngKeyObject → Except Err Nat
  signDigest : CngKeyObject → List Nat → Except Err (List Nat)

/-- SignHash: validate the key handle pair, reject padding info and null
digest/size-output pointers, validate the flags, check the key's
preconditions, compute the expected signature length, write it to the size
output; succeed if the signature buffer is null; fail NTE_BUFFER_TOO_SMALL if
the buffer is too small (writing no data); otherwise delegate signing. -/
def SignHash (st : CngState) (so : SignOracles) (hProvider hKey : Nat)
    (pPaddingInfoPresent : Bool) (pbHashValuePresent : Bool)
    (hashValue : List Nat) (pbSignaturePresent : Bool) (cbSignature : Nat)
    (pcbResultPresent : Bool) (dwFlags : Nat) : BufferOut :=
  match ValidateKeyHandle st hProvider hKey with
  | Except.error e => { status := Except.error e, sizeWritten := none, dataWritten := none }
  | Except.ok object =>
    if pPaddingInfoPresent then
      { status := Except.error { kind := ErrorKind.invalidArgument,
                                 code := NTE_INVALID_PARAMETER },
        sizeWritten := none, dataWritten := none }
    else if ¬ pbHashValuePresent then
      { status := Except.error { kind := ErrorKind.invalidArgument,
                                 code := NTE_INVALID_PARAMETER },
        sizeWritten := none, dataWritten := none }
    else if ¬ pcbResultPresent then
      { status := Except.error { kind := ErrorKind.invalidArgument,
                                 code := NTE_INVALID_PARAMETER },
        sizeWritten := none, dataWritten := none }
    else
      match ValidateFlags dwFlags with
      | Except.error e =>
        { status := Except.error e, sizeWritten := none, dataWritten := none }
      | Except.ok _ =>
        match so.validateKeyPreconditions object with
        | Except.error e =>
          { status := Except.error e, sizeWritten := none, dataWritten := none }
        | Except.ok _ =>
          match so.signatureLength object with
          | Except.error e =>
            { status := Except.error e, sizeWritten := none, dataWritten := none }
          | Except.ok len =>
            if ¬ pbSignaturePresent then
              { status := Except.ok (), sizeWritten := some len,
                dataWritten := none }
            else if cbSignature < len then
              { status := Except.error { kind := ErrorKind.outOfRange,
                                         code := NTE_BUFFER_TOO_SMALL },
                sizeWritten := some len, dataWritten := none }
            else
              match so.signDigest object hashValue with
              | Except.error e =>
                { status := Except.error e, sizeWritten := some len,
                  dataWritten := none }
              | Except.ok sig =>
                { status := Except.ok (), sizeWritten := some len,
                  dataWritten := some sig }

/-- FreeProvider: validate the handle, then release the Provider. -/
def FreeProvider (st : CngState) (hProvider : Nat) : Except Err CngState :=
  match ValidateProviderHandle st hProvider with
  | Except.error e => Except.error e
  | Except.ok _ =>
    Except.ok { st with providers := st.providers.filter (fun p => p.fst ≠ hProvider) }

/-- FreeKey: validate that the key handle was opened under exactly this
provider handle, then release the key object. -/
def FreeKey (st : CngState) (hProvider hKey : Nat) : Except Err CngState :=
  match ValidateKeyHandle st hProvider hKey with
  | Except.error e => Except.error e
  | Except.ok _ =>
    Except.ok { st with keys := st.keys.filter (fun p => p.fst ≠ hKey) }

/-- The crypto key version a CNG key name resolves to: its algorithm and
protection level. -/
structure CngCkvInfo where
  algorithm : Nat
  protectionLevel : Nat
  deriving DecidableEq, Repr

/-- Modelled from the spec: Object::New (kmscng/object.cc is not among the
sources here) resolves the key name against the KMS key store — an unknown
name fails NTE_BAD_KEYSET; a matched key whose algorithm is unsupported or
whose protection level is not HSM fails NTE_NOT_SUPPORTED; otherwise the key
object is created under the given provider handle. -/
def ObjectNew (kms : String → Option CngCkvInfo) (supportedAlg : Nat → Bool)
    (hProvider : Nat) (keyName : String) : Except Err CngKeyObject :=
  match kms keyName with
  | none => Except.error { kind := ErrorKind.notFound, code := NTE_BAD_KEYSET }
  | some info =>
    if ¬ supportedAlg info.algorithm ∨
        info.protectionLevel ≠ PROTECTION_LEVEL_HSM then
      Except.error { kind := ErrorKind.notSupported, code := NTE_NOT_SUPPORTED }
    else
      Except.ok { providerHandle := hProvider, keyName := keyName,
                  properties := [] }

/-- The flags word of OpenKey after masking out NCRYPT_SILENT_FLAG and
NCRYPT_MACHINE_KEY_FLAG (32-bit bitwise and-not, as in the source). -/
def openKeyMaskedFlags (dwFlags : Nat) : Nat :=
  (dwFlags &&& (0xFFFFFFFF ^^^ NCRYPT_SILENT_FLAG)) &&&
    (0xFFFFFFFF ^^^ NCRYPT_MACHINE_KEY_FLAG)

/-- OpenKey: null-handle and null-pointer checks, the legacy key spec check
(only AT_KEYEXCHANGE and AT_SIGNATURE are accepted), masking of the
silent-mode and machine-key bits followed by the bad-flags check, then
Object::New. -/
def OpenKey (kms : String → Option CngCkvInfo) (supportedAlg : Nat → Bool)
    (hProvider : Nat) (phKeyPresent : Bool) (pszKeyName : Option String)
    (dwLegacyKeySpec : Nat) (dwFlags : Nat) : Except Err CngKeyObject :=
  if hProvider = 0 then
    Except.error { kind := ErrorKind.invalidArgument, code := NTE_INVALID_HANDLE }
  else if ¬ phKeyPresent then
    Except.error { kind := ErrorKind.invalidArgument, code := NTE_INVALID_PARAMETER }
  else
    match pszKeyName with
    | none =>
      Except.error { kind := ErrorKind.invalidArgument, code := NTE_INVALID_PARAMETER }
    | some keyName =>
      if dwLegacyKeySpec ≠ AT_KEYEXCHANGE ∧ dwLegacyKeySpec ≠ AT_SIGNATURE then
        Except.error { kind := ErrorKind.invalidArgument,
                       code := NTE_INVALID_PARAMETER }
      else if openKeyMaskedFlags dwFlags ≠ 0 then
        Except.error { kind := ErrorKind.invalidArgument, code := NTE_BAD_FLAGS }
      else
        ObjectNew kms supportedAlg hProvider keyName

theorem validateProviderHandle_error (st : CngState) (hProvider : Nat) (e : Err)
    (h : ValidateProviderHandle st hProvider = Except.error e) :
    e = { kind := ErrorKind.invalidHandle, code := NTE_INVALID_HANDLE } := by
  unfold ValidateProviderHandle at h
  split at h
  · exact (Except.error.inj h).symm
  · split at h
    · exact (Except.error.inj h).symm
    · exact absurd h (by simp)

theorem validateKeyHandle_error (st : CngState) (hProvider hKey : Nat) (e : Err)
    (h : ValidateKeyHandle st hProvider hKey = Except.error e) :
    e = { kind := ErrorKind.invalidHandle, code := NTE_INVALID_HANDLE } := by
  unfold ValidateKeyHandle at h
  split at h
  · rename_i e2 he2
    exact (Except.error.inj h).symm.trans
      (validateProviderHandle_error st hProvider e2 he2)
  · split at h
    · exact (Except.error.inj h).symm
    · split at h
      · exact (Except.error.inj h).symm
      · split at h
        · exact absurd h (by simp)
        · exact (Except.error.inj h).symm

theorem validateFlags_error (flags : Nat) (e : Err)
    (h : ValidateFlags flags = Except.error e) :
    e = { kind := ErrorKind.invalidArgument, code := NTE_BAD_FLAGS } := by
  unfold ValidateFlags at h
  split at h
  · exact (Except.error.inj h).symm
  · exact absurd h (by simp)

theorem provider_getProperty_error (prov : CngProvider) (name : String) (e : Err)
    (h : prov.getProperty name = Except.error e) :
    e = { kind := ErrorKind.notSupported, code := NTE_NOT_SUPPORTED } := by
  unfold CngProvider.getProperty at h
  split at h
  · exact (Except.error.inj h).symm
  · exact absurd h (by simp)

theorem object_getProperty_error (obj : CngKeyObject) (name : String) (e : Err)
    (h : obj.getProperty name = Except.error e) :
    e = { kind := ErrorKind.notSupported, code := NTE_NOT_SUPPORTED } := by
  unfold CngKeyObject.getProperty at h
  split at h
  · exact (Except.error.inj h).symm
  · exact absurd h (by simp)

/-- C2: buffer-query convention of GetProviderProperty, GetKeyProperty and
SignHash.  Given a valid handle (pair), a known property name (for SignHash:
passing key preconditions and a computed signature length), a non-null size
output and allowed flags: a null output buffer makes the call write the
required byte size and return success; a non-null output buffer smaller than
required makes the call fail with the OutOfRange NTE_BUFFER_TOO_SMALL error,
still writing the required size and writing no data into the buffer. -/
theorem bridge_buffer_query_convention :
    (∀ (st : CngState) (hP : Nat) (prov : CngProvider) (name : String)
        (value : List Nat) (cbOutput : Nat) (dwFlags : Nat),
      ValidateProviderHandle st hP = Except.ok prov →
      prov.getProperty name = Except.ok value →
      ValidateFlags dwFlags = Except.ok () →
      GetProviderProperty st hP (some name) false cbOutput true dwFlags =
        { status := Except.ok (), sizeWritten := some value.length,
          dataWritten := none } ∧
      (cbOutput < value.length →
        GetProviderProperty st hP (some name) true cbOutput true dwFlags =
          { status := Except.error { kind := ErrorKind.outOfRange,
                                     code := NTE_BUFFER_TOO_SMALL },
            sizeWritten := some value.length, dataWritten := none })) ∧
    (∀ (st : CngState) (hP hK : Nat) (obj : CngKeyObject) (name : String)
        (value : List Nat) (cbOutput : Nat) (dwFlags : Nat),
      ValidateKeyHandle st hP hK = Except.ok obj →
      obj.getProperty name = Except.ok value →
      ValidateFlags dwFlags = Except.ok () →
      GetKeyProperty st hP hK (some name) false cbOutput true dwFlags =
        { status := Except.ok (), sizeWritten := some value.length,
          dataWritten := none } ∧
      (cbOutput < value.length →
        GetKeyProperty st hP hK (some name) true cbOutput true dwFlags =
          { status := Except.error { kind := ErrorKind.outOfRange,
                                     code := NTE_BUFFER_TOO_SMALL },
            sizeWritten := some value.length, dataWritten := none })) ∧
    (∀ (st : CngState) (so : SignOracles) (hP hK : Nat) (obj : CngKeyObject)
        (hash : List Nat) (len cbSignature : Nat) (dwFlags : Nat),
      ValidateKeyHandle st hP hK = Except.ok obj →
      so.validateKeyPreconditions obj = Except.ok () →
      so.signatureLength obj = Except.ok len →
      ValidateFlags dwFlags = Except.ok () →
      SignHash st so hP hK false true hash false cbSignature true dwFlags =
        { status := Except.ok (), sizeWritten := some len,
          dataWritten := none } ∧
      (cbSignature < len →
        SignHash st so hP hK false true hash true cbSignature true dwFlags =
          { status := Except.error { kind := ErrorKind.outOfRange,
                                     code := NTE_BUFFER_TOO_SMALL },
            sizeWritten := some len, dataWritten := none })) := by
  refine ⟨?_, ?_, ?_⟩
  · intro st hP prov name value cbOutput dwFlags hvp hprop hflags
    constructor
    · simp [GetProviderProperty, hvp, hprop, hflags]
    · intro hlt
      simp [GetProviderProperty, hvp, hprop, hflags, hlt]
  · intro st hP hK obj name value cbOutput dwFlags hvk hprop hflags
    constructor
    · simp [GetKeyProperty, hvk, hprop, hflags]
    · intro hlt
      simp [GetKeyProperty, hvk, hprop, hflags, hlt]
  · intro st so hP hK obj hash len cbSignature dwFlags hvk hpre hlen hflags
    constructor
    · simp [SignHash, hvk, hpre, hlen, hflags]
    · intro hlt
      simp [SignHash, hvk, hpre, hlen, hflags, hlt]

/-- C10: whenever GetProviderProperty, GetKeyProperty or SignHash fails with
the NTE_BUFFER_TOO_SMALL (OutOfRange) signal, the size output has already
been written with the exact required size (the size output is written before
the buffer-size comparison), and no data was written; for SignHash this is
stated under the collaborator contract that the key-precondition check and
the signature-length computation never themselves fail with an OutOfRange
error. -/
theorem bridge_size_written_on_buffer_too_small :
    (∀ (st : CngState) (hP : Nat) (psz : Option String) (pbP : Bool)
        (cb : Nat) (pcbP : Bool) (fl : Nat) (e : Err),
      (GetProviderProperty st hP psz pbP cb pcbP fl).status = Except.error e →
      e.kind = ErrorKind.outOfRange →
      ∃ prov name value,
        ValidateProviderHandle st hP = Except.ok prov ∧ psz = some name ∧
        prov.getProperty name = Except.ok value ∧
        (GetProviderProperty st hP psz pbP cb pcbP fl).sizeWritten =
          some value.length ∧
        (GetProviderProperty st hP psz pbP cb pcbP fl).dataWritten = none) ∧
    (∀ (st : CngState) (hP hK : Nat) (psz : Option String) (pbP : Bool)
        (cb : Nat) (pcbP : Bool) (fl : Nat) (e : Err),
      (GetKeyProperty st hP hK psz pbP cb pcbP fl).status = Except.error e →
      e.kind = ErrorKind.outOfRange →
      ∃ obj name value,
        ValidateKeyHandle st hP hK = Except.ok obj ∧ psz = some name ∧
        obj.getProperty name = Except.ok value ∧
        (GetKeyProperty st hP hK psz pbP cb pcbP fl).sizeWritten =
          some value.length ∧
        (GetKeyProperty st hP hK psz pbP cb pcbP fl).dataWritten = none) ∧
    (∀ (st : CngState) (so : SignOracles) (hP hK : Nat) (padP hashP : Bool)
        (hash : List Nat) (sigP : Bool) (cbSig : Nat) (pcbP : Bool) (fl : Nat)
        (e : Err),
      (∀ obj e2, so.validateKeyPreconditions obj = Except.error e2 →
        e2.kind ≠ ErrorKind.outOfRange) →
      (∀ obj e2, so.signatureLength obj = Except.error e2 →
        e2.kind ≠ ErrorKind.outOfRange) →
      (SignHash st so hP hK padP hashP hash sigP cbSig pcbP fl).status =
        Except.error e →
      e.kind = ErrorKind.outOfRange →
      ∃ obj len,
        ValidateKeyHandle st hP hK = Except.ok obj ∧
        so.signatureLength obj = Except.ok len ∧
        (SignHash st so hP hK padP hashP hash sigP cbSig pcbP fl).sizeWritten =
          some len ∧
        (SignHash st so hP hK padP hashP hash sigP cbSig pcbP fl).dataWritten =
          none) := by
  refine ⟨?_, ?_, ?_⟩
  · intro st hP psz pbP cb pcbP fl e hst hkind
    unfold GetProviderProperty at hst
    split at hst
    · rename_i e2 heq
      dsimp only at hst
      rw [← Except.error.inj hst, validateProviderHandle_error st hP e2 heq]
        at hkind
      exact absurd hkind (by decide)
    · rename_i prov heq
      split at hst
      · dsimp only at hst
        rw [← Except.error.inj hst] at hkind
        exact absurd hkind (by decide)
      · rename_i name
        split at hst
        · dsimp only at hst
          rw [← Except.error.inj hst] at hkind
          exact absurd hkind (by decide)
        · rename_i hpcb
          split at hst
          · rename_i e2 hfl
            dsimp only at hst
            rw [← Except.error.inj hst, validateFlags_error fl e2 hfl] at hkind
            exact absurd hkind (by decide)
          · rename_i u hfl
            split at hst
            · rename_i e2 hgp
              dsimp only at hst
              rw [← Except.error.inj hst,
                  provider_getProperty_error prov name e2 hgp] at hkind
              exact absurd hkind (by decide)
            · rename_i value hgp
              split at hst
              · dsimp only at hst
                exact absurd hst (by simp)
              · rename_i hpb
                split at hst
                · rename_i hlt
                  refine ⟨prov, name, value, heq, rfl, hgp, ?_, ?_⟩
                  · simp [GetProviderProperty, heq, hfl, hgp, hlt,
                          not_not.mp hpcb, not_not.mp hpb]
                  · simp [GetProviderProperty, heq, hfl, hgp, hlt,
                          not_not.mp hpcb, not_not.mp hpb]
                · dsimp only at hst
                  exact absurd hst (by simp)
  · intro st hP hK psz pbP cb pcbP fl e hst hkind
    unfold GetKeyProperty at hst
    split at hst
    · rename_i e2 heq
      dsimp only at hst
      rw [← Except.error.inj hst, validateKeyHandle_error st hP hK e2 heq]
        at hkind
      exact absurd hkind (by decide)
    · rename_i obj heq
      split at hst
      · dsimp only at hst
        rw [← Except.error.inj hst] at hkind
        exact absurd hkind (by decide)
      · rename_i name
        split at hst
        · dsimp only at hst
          rw [← Except.error.inj hst] at hkind
          exact absurd hkind (by decide)
        · rename_i hpcb
          split at hst
          · rename_i e2 hfl
            dsimp only at hst
            rw [← Except.error.inj hst, validateFlags_error fl e2 hfl] at hkind
            exact absurd hkind (by decide)
          · rename_i u hfl
            split at hst
            · rename_i e2 hgp
              dsimp only at hst
              rw [← Except.error.inj hst,
                  object_getProperty_error obj name e2 hgp] at hkind
              exact absurd hkind (by decide)
            · rename_i value hgp
              split at hst
              · dsimp only at hst
                exact absurd hst (by simp)
              · rename_i hpb
                split at hst
                · rename_i hlt
                  refine ⟨obj, name, value, heq, rfl, hgp, ?_, ?_⟩
                  · simp [GetKeyProperty, heq, hfl, hgp, hlt,
                          not_not.mp hpcb, not_not.mp hpb]
                  · simp [GetKeyProperty, heq, hfl, hgp, hlt,
                          not_not.mp hpcb, not_not.mp hpb]
                · dsimp only at hst
                  exact absurd hst (by simp)
  · intro st so hP hK padP hashP hash sigP cbSig pcbP fl e hso1 hso2 hst hkind
    unfold SignHash at hst
    split at hst
    · rename_i e2 heq
      dsimp only at hst
      rw [← Except.error.inj hst, validateKeyHandle_error st hP hK e2 heq]
        at hkind
      exact absurd hkind (by decide)
    · rename_i obj heq
      split at hst
      · dsimp only at hst
        rw [← Except.error.inj hst] at hkind
        exact absurd hkind (by decide)
      · rename_i hpad
        split at hst
        · dsimp only at hst
          rw [← Except.error.inj hst] at hkind
          exact absurd hkind (by decide)
        · rename_i hhash
          split at hst
          · dsimp only at hst
            rw [← Except.error.inj hst] at hkind
            exact absurd hkind (by decide)
          · rename_i hpcb
            split at hst
            · rename_i e2 hfl
              dsimp only at hst
              rw [← Except.error.inj hst, validateFlags_error fl e2 hfl]
                at hkind
              exact absurd hkind (by decide)
            · rename_i u hfl
              split at hst
              · rename_i e2 hpre
                dsimp only at hst
                rw [← Except.error.inj hst] at hkind
                exact absurd hkind (hso1 obj e2 hpre)
              · rename_i u2 hpre
                split at hst
                · rename_i e2 hlen
                  dsimp only at hst
                  rw [← Except.error.inj hst] at hkind
                  exact absurd hkind (hso2 obj e2 hlen)
                · rename_i len hlen
                  split at hst
                  · dsimp only at hst
                    exact absurd hst (by simp)
                  · rename_i hsigp
                    split at hst
                    · rename_i hlt
                      refine ⟨obj, len, heq, hlen, ?_, ?_⟩
                      · simp [SignHash, heq, hfl, hpre, hlen, hlt, hpad,
                              not_not.mp hhash, not_not.mp hpcb,
                              not_not.mp hsigp]
                      · simp [SignHash, heq, hfl, hpre, hlen, hlt, hpad,
                              not_not.mp hhash, not_not.mp hpcb,
                              not_not.mp hsigp]
                    · rename_i hnlt
                      split at hst
                      · rename_i e2 hsd
                        refine ⟨obj, len, heq, hlen, ?_, ?_⟩
                        · simp [SignHash, heq, hfl, hpre, hlen, hnlt, hpad, hsd,
                                not_not.mp hhash, not_not.mp hpcb,
                                not_not.mp hsigp]
                        · simp [SignHash, heq, hfl, hpre, hlen, hnlt, hpad, hsd,
                                not_not.mp hhash, not_not.mp hpcb,
                                not_not.mp hsigp]
                      · dsimp only at hst
                        exact absurd hst (by simp)

theorem find?_fst_filter_self {A : Type} (l : List (Nat × A)) (k : Nat) :
    (l.filter (fun q => q.fst ≠ k)).find? (fun q => q.fst = k) = none := by
  rw [List.find?_eq_none]
  intro x hx
  have hmem := List.of_mem_filter hx
  simp at hmem ⊢
  exact hmem

theorem validateProviderHandle_ok (st : CngState) (p : Nat) (prov : CngProvider)
    (h : ValidateProviderHandle st p = Except.ok prov) :
    p ≠ 0 ∧ ∃ pr, st.providers.find? (fun q => q.fst = p) = some pr ∧
      pr.snd = prov := by
  unfold ValidateProviderHandle at h
  split at h
  · exact absurd h (by simp)
  · rename_i hp0
    split at h
    · exact absurd h (by simp)
    · rename_i pr hpr
      exact ⟨hp0, pr, hpr, Except.ok.inj h⟩

theorem validateKeyHandle_ok (st : CngState) (p k : Nat) (obj : CngKeyObject)
    (h : ValidateKeyHandle st p k = Except.ok obj) :
    (∃ prov, ValidateProviderHandle st p = Except.ok prov) ∧ k ≠ 0 ∧
    (∃ kr, st.keys.find? (fun q => q.fst = k) = some kr ∧ kr.snd = obj) ∧
    obj.providerHandle = p := by
  unfold ValidateKeyHandle at h
  split at h
  · exact absurd h (by simp)
  · rename_i prov hprov
    split at h
    · exact absurd h (by simp)
    · rename_i hk0
      split at h
      · exact absurd h (by simp)
      · rename_i kr hkr
        split at h
        · rename_i howner
          have hobj := Except.ok.inj h
          subst hobj
          exact ⟨⟨prov, hprov⟩, hk0, ⟨kr, hkr, rfl⟩, howner⟩
        · exact absurd h (by simp)

/-- C3: a key handle is scoped to the provider handle that opened it.  From
any state in which key handle k resolves under provider handle p: presenting
k under a different provider handle q fails NTE_INVALID_HANDLE; freeing k
under p succeeds, and a second free of k under p fails NTE_INVALID_HANDLE;
and after freeing provider p, every use of k under p — key property reads,
signing, and freeing — fails NTE_INVALID_HANDLE, never success. -/
theorem key_handle_provider_scoping (st : CngState) (p k : Nat)
    (obj : CngKeyObject) (hk : ValidateKeyHandle st p k = Except.ok obj) :
    (∀ q, q ≠ p → FreeKey st q k =
      Except.error { kind := ErrorKind.invalidHandle,
                     code := NTE_INVALID_HANDLE }) ∧
    (∃ st2, FreeKey st p k = Except.ok st2 ∧
      FreeKey st2 p k =
        Except.error { kind := ErrorKind.invalidHandle,
                       code := NTE_INVALID_HANDLE }) ∧
    (∀ st3, FreeProvider st p = Except.ok st3 →
      ValidateKeyHandle st3 p k =
        Except.error { kind := ErrorKind.invalidHandle,
                       code := NTE_INVALID_HANDLE } ∧
      (∀ psz pbP cb pcbP fl,
        (GetKeyProperty st3 p k psz pbP cb pcbP fl).status =
          Except.error { kind := ErrorKind.invalidHandle,
                         code := NTE_INVALID_HANDLE }) ∧
      (∀ (so : SignOracles) padP hashP hash sigP cbSig pcbP fl,
        (SignHash st3 so p k padP hashP hash sigP cbSig pcbP fl).status =
          Except.error { kind := ErrorKind.invalidHandle,
                         code := NTE_INVALID_HANDLE }) ∧
      FreeKey st3 p k =
        Except.error { kind := ErrorKind.invalidHandle,
                       code := NTE_INVALID_HANDLE }) := by
  obtain ⟨⟨prov, hprov⟩, hk0, ⟨kr, hkr, hkrobj⟩, howner⟩ :=
    validateKeyHandle_ok st p k obj hk
  obtain ⟨hp0, pr, hpr, hprval⟩ := validateProviderHandle_ok st p prov hprov
  have hkrp : kr.snd.providerHandle = p := by rw [hkrobj]; exact howner
  refine ⟨?_, ?_, ?_⟩
  · intro q hqp
    have hvq : ValidateKeyHandle st q k =
        Except.error { kind := ErrorKind.invalidHandle,
                       code := NTE_INVALID_HANDLE } := by
      unfold ValidateKeyHandle
      cases hq : ValidateProviderHandle st q with
      | error e2 => rw [validateProviderHandle_error st q e2 hq]
      | ok prov2 =>
        dsimp only
        rw [if_neg hk0, hkr]
        dsimp only
        rw [if_neg (fun hc : kr.snd.providerHandle = q =>
          hqp (by rw [← hc, hkrp]))]
    unfold FreeKey
    rw [hvq]
  · refine ⟨{ st with keys := st.keys.filter (fun q => q.fst ≠ k) }, ?_, ?_⟩
    · unfold FreeKey
      rw [hk]
    · have hvk2 : ValidateKeyHandle
          { st with keys := st.keys.filter (fun q => q.fst ≠ k) } p k =
          Except.error { kind := ErrorKind.invalidHandle,
                         code := NTE_INVALID_HANDLE } := by
        unfold ValidateKeyHandle ValidateProviderHandle
        dsimp only
        rw [if_neg hp0, hpr]
        dsimp only
        rw [if_neg hk0, find?_fst_filter_self st.keys k]
      unfold FreeKey
      rw [hvk2]
  · intro st3 h3
    have hst3 : st3 =
        { st with providers := st.providers.filter (fun q => q.fst ≠ p) } := by
      unfold FreeProvider at h3
      rw [hprov] at h3
      exact (Except.ok.inj h3).symm
    subst hst3
    have hvk3 : ValidateKeyHandle
        { st with providers := st.providers.filter (fun q => q.fst ≠ p) } p k =
        Except.error { kind := ErrorKind.invalidHandle,
                       code := NTE_INVALID_HANDLE } := by
      unfold ValidateKeyHandle ValidateProviderHandle
      dsimp only
      rw [if_neg hp0, find?_fst_filter_self st.providers p]
    refine ⟨hvk3, ?_, ?_, ?_⟩
    · intro psz pbP cb pcbP fl
      unfold GetKeyProperty
      rw [hvk3]
    · intro so padP hashP hash sigP cbSig pcbP fl
      unfold SignHash
      rw [hvk3]
    · unfold FreeKey
      rw [hvk3]

/-- Concrete provider for the CNG bridge witnesses. -/
def witCngProvider : CngProvider := { properties := [("impl", [7, 8])] }

/-- Concrete key object for the CNG bridge witnesses, opened under provider
handle 1. -/
def witCngKey : CngKeyObject :=
  { providerHandle := 1, keyName := "ck", properties := [("usage", [9, 9, 9])] }

/-- Concrete bridge state for the CNG bridge witnesses. -/
def witCngState : CngState :=
  { providers := [(1, witCngProvider)], keys := [(2, witCngKey)] }

/-- Concrete signing collaborators for the CNG bridge witnesses. -/
def witSignOracles : SignOracles :=
  { validateKeyPreconditions := fun _ => Except.ok (),
    signatureLength := fun _ => Except.ok 64,
    signDigest := fun _ _ => Except.ok (List.replicate 64 1) }

/-- Witness for C2 at the concrete bridge state: a null-buffer provider
property query returns success with the required size; a one-byte buffer for
the three-byte key property fails NTE_BUFFER_TOO_SMALL with the size written
and no data; a null-buffer signature query returns success with the expected
signature length. -/
theorem bridge_buffer_query_convention_witness :
    GetProviderProperty witCngState 1 (some "impl") false 5 true 0 =
      { status := Except.ok (), sizeWritten := some 2, dataWritten := none } ∧
    GetKeyProperty witCngState 1 2 (some "usage") true 1 true 64 =
      { status := Except.error { kind := ErrorKind.outOfRange,
                                 code := NTE_BUFFER_TOO_SMALL },
        sizeWritten := some 3, dataWritten := none } ∧
    SignHash witCngState witSignOracles 1 2 false true [3] false 0 true 0 =
      { status := Except.ok (), sizeWritten := some 64, dataWritten := none } := by
  obtain ⟨h1, h2, h3⟩ := bridge_buffer_query_convention
  refine ⟨(h1 witCngState 1 witCngProvider "impl" [7, 8] 5 0 rfl rfl rfl).1,
          (h2 witCngState 1 2 witCngKey "usage" [9, 9, 9] 1 64 rfl rfl rfl).2
            (by decide),
          (h3 witCngState witSignOracles 1 2 witCngKey [3] 64 0 0
            rfl rfl rfl rfl).1⟩

/-- Witness for C10 at the concrete bridge state: the provider property call
that fails NTE_BUFFER_TOO_SMALL has already written the required size. -/
theorem bridge_size_written_on_buffer_too_small_witness :
    ∃ prov name value,
      ValidateProviderHandle witCngState 1 = Except.ok prov ∧
      (some "impl" : Option String) = some name ∧
      prov.getProperty name = Except.ok value ∧
      (GetProviderProperty witCngState 1 (some "impl") true 1 true 0).sizeWritten =
        some value.length ∧
      (GetProviderProperty witCngState 1 (some "impl") true 1 true 0).dataWritten =
        none :=
  bridge_size_written_on_buffer_too_small.1 witCngState 1 (some "impl") true 1
    true 0 { kind := ErrorKind.outOfRange, code := NTE_BUFFER_TOO_SMALL }
    rfl rfl

/-- Witness for C3 at the concrete bridge state: key handle 2 was opened
under provider handle 1; presenting it under provider handle 3 fails
NTE_INVALID_HANDLE; freeing it under provider 1 succeeds exactly once; and
after freeing provider 1, using key 2 under it fails NTE_INVALID_HANDLE. -/
theorem key_handle_provider_scoping_witness :
    FreeKey witCngState 3 2 =
      Except.error { kind := ErrorKind.invalidHandle,
                     code := NTE_INVALID_HANDLE } ∧
    (∃ st2, FreeKey witCngState 1 2 = Except.ok st2 ∧
      FreeKey st2 1 2 =
        Except.error { kind := ErrorKind.invalidHandle,
                       code := NTE_INVALID_HANDLE }) ∧
    ValidateKeyHandle { providers := [], keys := [(2, witCngKey)] } 1 2 =
      Except.error { kind := ErrorKind.invalidHandle,
                     code := NTE_INVALID_HANDLE } := by
  obtain ⟨h1, h2, h3⟩ :=
    key_handle_provider_scoping witCngState 1 2 witCngKey rfl
  exact ⟨h1 3 (by decide), h2,
         (h3 { providers := [], keys := [(2, witCngKey)] } rfl).1⟩

/-- C8: OpenKey, after its null-handle and null-pointer checks, accepts
exactly the legacy key specs AT_KEYEXCHANGE and AT_SIGNATURE and fails
NTE_INVALID_PARAMETER for any other selector; it masks NCRYPT_SILENT_FLAG and
NCRYPT_MACHINE_KEY_FLAG out of the flags word (the mask equals clearing both
bits at once) and fails NTE_BAD_FLAGS exactly when any other bit remains set,
otherwise proceeding to Object::New; an unknown key name fails
NTE_BAD_KEYSET; and a matched key with an unsupported algorithm or a
non-HSM protection level fails NTE_NOT_SUPPORTED. -/
theorem open_key_validation (kms : String → Option CngCkvInfo)
    (supportedAlg : Nat → Bool) (hP : Nat) (name : String)
    (keySpec dwFlags : Nat) (hP0 : hP ≠ 0) :
    (keySpec ≠ AT_KEYEXCHANGE → keySpec ≠ AT_SIGNATURE →
      OpenKey kms supportedAlg hP true (some name) keySpec dwFlags =
        Except.error { kind := ErrorKind.invalidArgument,
                       code := NTE_INVALID_PARAMETER }) ∧
    (openKeyMaskedFlags dwFlags =
      dwFlags &&& (0xFFFFFFFF ^^^ (NCRYPT_SILENT_FLAG ||| NCRYPT_MACHINE_KEY_FLAG))) ∧
    ((keySpec = AT_KEYEXCHANGE ∨ keySpec = AT_SIGNATURE) →
      (openKeyMaskedFlags dwFlags ≠ 0 →
        OpenKey kms supportedAlg hP true (some name) keySpec dwFlags =
          Except.error { kind := ErrorKind.invalidArgument,
                         code := NTE_BAD_FLAGS }) ∧
      (openKeyMaskedFlags dwFlags = 0 →
        OpenKey kms supportedAlg hP true (some name) keySpec dwFlags =
          ObjectNew kms supportedAlg hP name)) ∧
    (kms name = none →
      ObjectNew kms supportedAlg hP name =
        Except.error { kind := ErrorKind.notFound, code := NTE_BAD_KEYSET }) ∧
    (∀ info, kms name = some info →
      (supportedAlg info.algorithm = false ∨
        info.protectionLevel ≠ PROTECTION_LEVEL_HSM) →
      ObjectNew kms supportedAlg hP name =
        Except.error { kind := ErrorKind.notSupported,
                       code := NTE_NOT_SUPPORTED }) := by
  refine ⟨?_, ?_, ?_, ?_, ?_⟩
  · intro h1 h2
    simp [OpenKey, hP0, h1, h2]
  · unfold openKeyMaskedFlags
    rw [Nat.and_assoc]
    congr 1
  · intro hspec
    constructor
    · intro hmask
      rcases hspec with h | h <;>
        simp [OpenKey, hP0, h, hmask, AT_KEYEXCHANGE, AT_SIGNATURE]
    · intro hmask
      rcases hspec with h | h <;>
        simp [OpenKey, hP0, h, hmask, AT_KEYEXCHANGE, AT_SIGNATURE]
  · intro hnone
    simp [ObjectNew, hnone]
  · intro info hinfo hbad
    rcases hbad with h | h
    · simp [ObjectNew, hinfo, h]
    · simp [ObjectNew, hinfo, h]

/-- Witness for C8 at concrete inputs: selector 0 is rejected
NTE_INVALID_PARAMETER; flag NCRYPT_PERSIST_ONLY_FLAG (0x40000000) survives
the mask and is rejected NTE_BAD_FLAGS; silent+machine-key flags are masked
away and the call proceeds to Object::New; an unknown name fails
NTE_BAD_KEYSET; a software-protection key fails NTE_NOT_SUPPORTED. -/
theorem open_key_validation_witness :
    OpenKey (fun _ => none) (fun a => a = 12) 1 true (some "k") 0 0 =
      Except.error { kind := ErrorKind.invalidArgument,
                     code := NTE_INVALID_PARAMETER } ∧
    OpenKey (fun _ => none) (fun a => a = 12) 1 true (some "k") 2 0x40000000 =
      Except.error { kind := ErrorKind.invalidArgument,
                     code := NTE_BAD_FLAGS } ∧
    OpenKey (fun _ => none) (fun a => a = 12) 1 true (some "k") 2 0x60 =
      ObjectNew (fun _ => none) (fun a => a = 12) 1 "k" ∧
    ObjectNew (fun _ => none) (fun a => a = 12) 1 "k" =
      Except.error { kind := ErrorKind.notFound, code := NTE_BAD_KEYSET } ∧
    ObjectNew (fun _ => some { algorithm := 12, protectionLevel := 1 })
        (fun a => a = 12) 1 "k" =
      Except.error { kind := ErrorKind.notSupported,
                     code := NTE_NOT_SUPPORTED } := by
  obtain ⟨h1, _, h3, h4, h5⟩ :=
    open_key_validation (fun _ => none) (fun a => a = 12) 1 "k" 0 0
      (by decide)
  obtain ⟨_, _, h3b, _, _⟩ :=
    open_key_validation (fun _ => none) (fun a => a = 12) 1 "k" 2 0x40000000
      (by decide)
  obtain ⟨_, _, h3c, _, _⟩ :=
    open_key_validation (fun _ => none) (fun a => a = 12) 1 "k" 2 0x60
      (by decide)
  obtain ⟨_, _, _, _, h5d⟩ :=
    open_key_validation (fun _ => some { algorithm := 12, protectionLevel := 1 })
      (fun a => a = 12) 1 "k" 2 0
      (by decide)
  refine ⟨h1 (by decide) (by decide), ?_, ?_, h4 rfl, ?_⟩
  · exact (h3b (Or.inr rfl)).1 (by decide)
  · exact (h3c (Or.inr rfl)).2 (by decide)
  · exact h5d { algorithm := 12, protectionLevel := 1 } rfl (by decide)

end KmsInteg
